import Mathlib

/-!
Sparsity pattern of the discrete gradient operator.

A shallow embedding of `fem::create_sparsity_discrete_gradient`
(`cpp/dolfinx/fem/discreteoperators.cpp`) and of the dispatch of
`dolfin::refine` (`dolfin/refinement/refine.cpp`), and theorems about them.

Modelling conventions.

* Entity, cell and dof indices (`std::int32_t` in the source) are natural
  numbers. The number of local edges `size_local() + num_ghosts()` is taken
  within the range of `std::int32_t`, as the connectivity lists are indexed by
  it.
* Global sizes (`std::int64_t`) and block sizes (`int`) are integers. The
  product `size_global() * index_map_bs()` is computed in `std::int64_t`: it is
  the exact product reduced modulo `2^64` into the signed range (`wrap_int64`).
* A `std::shared_ptr<const mesh::Mesh>` is an `Option` of an address together
  with the object it points to; pointers are compared by address, the null
  pointer being `none`.
* The build flag `NDEBUG` is the parameter `ndebug`. Without it `assert(c)`
  stops the call with `Failure.assertion_failed` when `c` is false; with it
  `assert(c)` is compiled out and the call goes on.
  `throw std::runtime_error(m)` stops the call with `Failure.runtime_error m`.
  A read past the end of a span or vector stops the call with
  `Failure.out_of_bounds`, the use of a null pointer with
  `Failure.null_dereference`.
* The calls `create_entities` and `create_connectivity` are idempotent and only
  make the queried connectivity available; the topology is taken with these
  connectivities present.
* `V0.dofmap()` and `V1.dofmap()` are dereferenced before `assert(dofmap0)` is
  reached, so a function space always carries a dof map.
* The function returns, next to its result, the accumulator object as it was
  left when the call ended and the list of edge indices whose loop body was
  entered.
-/

set_option autoImplicit false

namespace dolfinx

/-! ## Collaborators -/

namespace common

/-- Distributed index map, as far as the operator reads it: `size_local()`,
`num_ghosts()`, `size_global()`, `local_range()` and the global indices of the
ghosts. -/
structure IndexMap where
  size_local : Nat
  num_ghosts : Nat
  size_global : Int
  local_range : Nat × Nat
  ghosts : List Nat

/-- Modelled from the spec: the translation of a process-local index to a
global index by the Index Translator (`IndexMap` itself is not part of the
sources at hand): owned indices are shifted by the offset of the owned range,
ghost indices are remapped through the ghost list. -/
def IndexMap.local_to_global (m : IndexMap) (i : Nat) : Nat :=
  if i < m.size_local then m.local_range.1 + i
  else m.ghosts.getD (i - m.size_local) 0

end common

namespace graph

/-- Connectivity relation: `links node` is the ordered list of incident
entities of `node`. -/
structure AdjacencyList where
  links : Nat → List Nat

end graph

namespace mesh

/-- Modelled from the spec: a cell type is known here only through the number
of entities of each dimension of its reference cell (the table behind
`mesh::cell_num_entities` is not part of the sources at hand). -/
structure CellType where
  num_entities : Nat → Nat

/-- The call `mesh::cell_num_entities(type, dim)`. -/
def cell_num_entities (type : CellType) (dim : Nat) : Nat :=
  type.num_entities dim

/-- Mesh topology: `dim()`, `cell_type()`, `index_map(d)` and
`connectivity(d0, d1)`. -/
structure Topology where
  dim : Nat
  cell_type : CellType
  index_map : Nat → common.IndexMap
  connectivity : Nat → Nat → graph.AdjacencyList

/-- A mesh: its communicator and its topology. -/
structure Mesh where
  mpi_comm : Nat
  topology : Topology

/-- A non-null shared pointer to a mesh: the address of the instance and the
instance itself. -/
structure MeshPtr where
  addr : Nat
  target : Mesh

end mesh

namespace fem

/-- Element dof layout: `entity_dofs dim i` lists the cell-local dof indices
attached to local entity `i` of dimension `dim`. -/
structure ElementDofLayout where
  entity_dofs : Nat → Nat → List Nat

/-- Dof map of a function space. -/
structure DofMap where
  element_dof_layout : ElementDofLayout
  index_map : common.IndexMap
  index_map_bs : Int
  cell_dofs : Nat → List Nat

/-- Function space: its mesh pointer (possibly null) and its dof map. -/
structure FunctionSpace where
  mesh : Option mesh.MeshPtr
  dofmap : DofMap

end fem

namespace la

/-- A call received by the sparsity accumulator after its construction. -/
inductive Call where
  | insert (row : Nat) (cols : List Nat)
  | assemble
  deriving DecidableEq, Repr

/-- Modelled from the spec: the distributed sparsity accumulator
(`la::SparsityPattern` is not part of the sources at hand), recorded as the
arguments of its constructor and the sequence of calls it has received, oldest
first. -/
structure SparsityPattern where
  comm : Nat
  index_maps : common.IndexMap × common.IndexMap
  block_sizes : Int × Int
  calls : List Call

/-- The constructor `SparsityPattern(comm, index_maps, block_sizes)`. -/
def SparsityPattern.create (comm : Nat)
    (index_maps : common.IndexMap × common.IndexMap) (block_sizes : Int × Int) :
    SparsityPattern :=
  { comm := comm, index_maps := index_maps, block_sizes := block_sizes, calls := [] }

/-- The call `pattern.insert(row, cols)`. -/
def SparsityPattern.insert (p : SparsityPattern) (row : Nat) (cols : List Nat) :
    SparsityPattern :=
  { p with calls := p.calls ++ [Call.insert row cols] }

/-- The call `pattern.assemble()`. -/
def SparsityPattern.assemble (p : SparsityPattern) : SparsityPattern :=
  { p with calls := p.calls ++ [Call.assemble] }

end la

/-! ## The operator -/

namespace fem

/-- How a call can end without returning. -/
inductive Failure where
  | runtime_error (what : String)
  | assertion_failed (expr : String)
  | out_of_bounds
  | null_dereference
  deriving DecidableEq, Repr

/-- Message of the exception thrown when the meshes differ. -/
def mesh_mismatch_what : String :=
  "Compute discrete gradient operator. Function spaces do not share the same mesh"

/-- Message of the exception thrown when `V0` is not an edge space. -/
def row_shape_what : String :=
  "Cannot compute discrete gradient operator. Function spaces is not a lowest-order edge space"

/-- Message of the exception thrown when `V1` is not a nodal space. -/
def col_shape_what : String :=
  "Cannot compute discrete gradient operator. Function space is not a linear nodal function space"

/-- What is observed of one call: the result (the returned pattern or the
failure), the accumulator as it was left (`none`: never constructed) and the
edges whose loop body was entered, in order. -/
structure Run where
  result : Except Failure la.SparsityPattern
  pattern : Option la.SparsityPattern
  traversed : List Nat

/-- A call that ends before the accumulator is constructed. -/
def Run.stopped (f : Failure) : Run :=
  { result := Except.error f, pattern := none, traversed := [] }

/-- The lookup tables `local_edge_dofs` and `local_vertex_dofs`: a `std::map`
filled for the keys `0 .. n-1` with `layout->entity_dofs(dim, i)`; reading
another key with `operator[]` yields an empty vector. -/
def local_entity_dofs (layout : ElementDofLayout) (dim n : Nat) (i : Nat) : List Nat :=
  if i < n then layout.entity_dofs dim i else []

/-- One pass of the inner loop over the two vertices of an edge: the column
`cols[i]` for the vertex `v`. -/
def vertex_col (ndebug : Bool) (cell_vertices : List Nat)
    (local_vertex_dofs : Nat → List Nat) (dofs1 : List Nat) (v : Nat) :
    Except Failure Nat :=
  let local_vertex := cell_vertices.indexOf v
  if ndebug = false ∧ local_vertex = cell_vertices.length then
    Except.error (Failure.assertion_failed "it != cell_vertices.end()")
  else
    let local_v_dofs := local_vertex_dofs local_vertex
    if ndebug = false ∧ local_v_dofs.length ≠ 1 then
      Except.error (Failure.assertion_failed "local_v_dofs.size() == 1")
    else
      match local_v_dofs[0]? with
      | none => Except.error Failure.out_of_bounds
      | some d =>
        match dofs1[d]? with
        | none => Except.error Failure.out_of_bounds
        | some col => Except.ok col

/-- The body of the loop over the edges, up to the call of `insert`: the row
and the columns computed for the edge `e`. -/
def edge_entry (ndebug : Bool) (topology : mesh.Topology) (V0 V1 : FunctionSpace)
    (e : Nat) : Except Failure (Nat × List Nat) :=
  let tdim := topology.dim
  let e_to_v := topology.connectivity 1 0
  let c_to_e := topology.connectivity tdim 1
  let e_to_c := topology.connectivity 1 tdim
  let c_to_v := topology.connectivity tdim 0
  let local_edge_dofs := local_entity_dofs V0.dofmap.element_dof_layout 1
    (mesh.cell_num_entities topology.cell_type 1)
  let local_vertex_dofs := local_entity_dofs V1.dofmap.element_dof_layout 0
    (mesh.cell_num_entities topology.cell_type 0)
  let cells := e_to_c.links e
  if ndebug = false ∧ cells.length = 0 then
    Except.error (Failure.assertion_failed "cells.size() > 0")
  else
    match cells[0]? with
    | none => Except.error Failure.out_of_bounds
    | some cell =>
      let edges := c_to_e.links cell
      let local_edge := edges.indexOf e
      if ndebug = false ∧ local_edge = edges.length then
        Except.error (Failure.assertion_failed "it != edges.end()")
      else
        let dofs0 := V0.dofmap.cell_dofs cell
        let local_dofs := local_edge_dofs local_edge
        if ndebug = false ∧ local_dofs.length ≠ 1 then
          Except.error (Failure.assertion_failed "local_dofs.size() == 1")
        else
          match local_dofs[0]? with
          | none => Except.error Failure.out_of_bounds
          | some d =>
            match dofs0[d]? with
            | none => Except.error Failure.out_of_bounds
            | some row =>
              let vertices := e_to_v.links e
              if ndebug = false ∧ vertices.length ≠ 2 then
                Except.error (Failure.assertion_failed "vertices.size() == 2")
              else
                let cell_vertices := c_to_v.links cell
                let dofs1 := V1.dofmap.cell_dofs cell
                match vertices[0]? with
                | none => Except.error Failure.out_of_bounds
                | some v0 =>
                  match vertex_col ndebug cell_vertices local_vertex_dofs dofs1 v0 with
                  | Except.error f => Except.error f
                  | Except.ok col0 =>
                    match vertices[1]? with
                    | none => Except.error Failure.out_of_bounds
                    | some v1 =>
                      match vertex_col ndebug cell_vertices local_vertex_dofs dofs1 v1 with
                      | Except.error f => Except.error f
                      | Except.ok col1 => Except.ok (row, [col0, col1])

/-- The loop `for (e = ...; e < num_edges; ++e)` over the remaining edge
indices `es`, followed by `pattern.assemble()` and the return. -/
def edge_loop (entry : Nat → Except Failure (Nat × List Nat)) :
    List Nat → la.SparsityPattern → List Nat → Run
  | [], pattern, traversed =>
    { result := Except.ok pattern.assemble, pattern := some pattern.assemble,
      traversed := traversed }
  | e :: es, pattern, traversed =>
    match entry e with
    | Except.error f =>
      { result := Except.error f, pattern := some pattern, traversed := traversed ++ [e] }
    | Except.ok (row, cols) =>
      edge_loop entry es (pattern.insert row cols) (traversed ++ [e])

/-- Reduction of an integer into the range of `std::int64_t`, as the 64-bit
multiplication does. -/
def wrap_int64 (x : Int) : Int :=
  (x + 2 ^ 63) % 2 ^ 64 - 2 ^ 63

/-- Global scalar dimension of a space as computed at lines 31-32 and 43-44:
`size_global() * index_map_bs()` in `std::int64_t`. -/
def global_dim (V : FunctionSpace) : Int :=
  wrap_int64 (V.dofmap.index_map.size_global * V.dofmap.index_map_bs)

/-- Number of edges visited: `size_local() + num_ghosts()` of the edge index
map. -/
def num_edges (topology : mesh.Topology) : Nat :=
  (topology.index_map 1).size_local + (topology.index_map 1).num_ghosts

/-- The function `fem::create_sparsity_discrete_gradient(V0, V1)`, built
without (`ndebug = false`) or with (`ndebug = true`) the flag `NDEBUG`. -/
def create_sparsity_discrete_gradient (ndebug : Bool) (V0 V1 : FunctionSpace) : Run :=
  if ndebug = false ∧ V0.mesh.isNone = true then
    Run.stopped (Failure.assertion_failed "mesh")
  else if ndebug = false ∧ V1.mesh.isNone = true then
    Run.stopped (Failure.assertion_failed "V1.mesh()")
  else if V0.mesh.map (fun p => p.addr) ≠ V1.mesh.map (fun p => p.addr) then
    Run.stopped (Failure.runtime_error mesh_mismatch_what)
  else
    match V0.mesh with
    | none => Run.stopped Failure.null_dereference
    | some mesh =>
      let topology := mesh.target.topology
      let num_edges_global := (topology.index_map 1).size_global
      if global_dim V0 ≠ num_edges_global then
        Run.stopped (Failure.runtime_error row_shape_what)
      else
        let num_vertices_global := (topology.index_map 0).size_global
        if global_dim V1 ≠ num_vertices_global then
          Run.stopped (Failure.runtime_error col_shape_what)
        else
          let index_maps := (V0.dofmap.index_map, V1.dofmap.index_map)
          let block_sizes := (V0.dofmap.index_map_bs, V1.dofmap.index_map_bs)
          if ndebug = false ∧ block_sizes.1 ≠ block_sizes.2 then
            Run.stopped (Failure.assertion_failed "block_sizes[0] == block_sizes[1]")
          else
            let pattern := la.SparsityPattern.create mesh.target.mpi_comm index_maps block_sizes
            edge_loop (edge_entry ndebug topology V0 V1) (List.range (num_edges topology))
              pattern []

/-! ## Concrete inputs -/

/-- Connectivity given by the table of its lists; nodes past the table have no
links. -/
def adjacency (data : List (List Nat)) : graph.AdjacencyList :=
  { links := fun node => data.getD node [] }

/-- Reference triangle: three vertices, three edges, one cell. -/
def triangle_type : mesh.CellType :=
  { num_entities := fun dim => match dim with
      | 0 => 3
      | 1 => 3
      | 2 => 1
      | _ => 0 }

/-- Index map of a process owning the `n` indices `offset .. offset + n - 1`
out of `size_global`, without ghosts. -/
def owned_index_map (offset n : Nat) (size_global : Int) : common.IndexMap :=
  { size_local := n, num_ghosts := 0, size_global := size_global,
    local_range := (offset, offset + n), ghosts := [] }

/-- Topology of one triangle whose edge `i` is opposite to vertex `i`, on a
process owning entities `offset .. offset + 2` of `size_global` of each kind;
`e_to_v` is the edge-to-vertex table. -/
def triangle_topology (e_to_v : List (List Nat)) (offset : Nat) (size_global : Int) :
    mesh.Topology :=
  { dim := 2
    cell_type := triangle_type
    index_map := fun dim =>
      if dim = 2 then owned_index_map 0 1 1 else owned_index_map offset 3 size_global
    connectivity := fun d0 d1 =>
      match d0, d1 with
      | 1, 0 => adjacency e_to_v
      | 2, 1 => adjacency [[0, 1, 2]]
      | 1, 2 => adjacency [[0], [0], [0]]
      | 2, 0 => adjacency [[0, 1, 2]]
      | _, _ => adjacency [] }

/-- Edge-to-vertex table of the reference triangle. -/
def triangle_e_to_v : List (List Nat) := [[1, 2], [0, 2], [0, 1]]

/-- Pointer to a mesh instance at address `addr` holding `topology`. -/
def mesh_at (addr : Nat) (topology : mesh.Topology) : mesh.MeshPtr :=
  { addr := addr, target := { mpi_comm := 0, topology := topology } }

/-- Space on `m` with one dof on each local entity of dimension `dim` of the
cell, the cell-local dof `i` sitting on local entity `i`; `dofs` are the
process-local dofs of cell 0. -/
def one_dof_space (m : mesh.MeshPtr) (dim : Nat) (index_map : common.IndexMap)
    (dofs : List Nat) : FunctionSpace :=
  { mesh := some m
    dofmap :=
      { element_dof_layout := { entity_dofs := fun d i => if d = dim then [i] else [] }
        index_map := index_map
        index_map_bs := 1
        cell_dofs := fun cell => if cell = 0 then dofs else [] } }

/-- The single reference triangle on one process. -/
def triangle_mesh : mesh.MeshPtr :=
  mesh_at 0 (triangle_topology triangle_e_to_v 0 3)

/-- Lowest-order edge space on the single triangle; `dofs` are the dofs of the
edges 0, 1, 2. -/
def triangle_V0 (dofs : List Nat) : FunctionSpace :=
  one_dof_space triangle_mesh 1 (owned_index_map 0 3 3) dofs

/-- Linear nodal space on the single triangle; `dofs` are the dofs of the
vertices 0, 1, 2. -/
def triangle_V1 (dofs : List Nat) : FunctionSpace :=
  one_dof_space triangle_mesh 0 (owned_index_map 0 3 3) dofs

/-! ## Specification vocabulary -/

/-- The call of `insert` issued for an entry `(row, cols)`. -/
def insert_call (x : Nat × List Nat) : la.Call :=
  la.Call.insert x.1 x.2

/-- The entries inserted by the loop over `es`: those of the edges in front of
the first edge whose body fails. -/
def inserted (entry : Nat → Except Failure (Nat × List Nat)) :
    List Nat → List (Nat × List Nat)
  | [] => []
  | e :: es =>
    match entry e with
    | Except.error _ => []
    | Except.ok x => x :: inserted entry es

/-- Validation passes for `V0`, `V1` over the mesh `m`: both mesh pointers are
non-null and equal, and the two global dimensions are the global numbers of
edges and of vertices. -/
def validated (V0 V1 : FunctionSpace) (m : mesh.MeshPtr) : Prop :=
  V0.mesh = some m ∧ (∃ m1, V1.mesh = some m1 ∧ m.addr = m1.addr) ∧
  global_dim V0 = (m.target.topology.index_map 1).size_global ∧
  global_dim V1 = (m.target.topology.index_map 0).size_global

/-- The accumulator constructed at the end of validation. -/
def fresh_pattern (V0 V1 : FunctionSpace) (m : mesh.MeshPtr) : la.SparsityPattern :=
  la.SparsityPattern.create m.target.mpi_comm
    (V0.dofmap.index_map, V1.dofmap.index_map)
    (V0.dofmap.index_map_bs, V1.dofmap.index_map_bs)

/-- The dofmap `V0` is consistent with its element layout for the numbering
`edge_dof` of the edge dofs: wherever the lookup
`cell_dofs(c)[entity_dofs(1, p)[0]]` is defined, it is the dof of the edge at
position `p` of the cell-to-edge list of `c`. -/
def row_dofs_consistent (topology : mesh.Topology) (V0 : FunctionSpace)
    (edge_dof : Nat → Nat) : Prop :=
  ∀ cell p e d row,
    ((topology.connectivity topology.dim 1).links cell)[p]? = some e →
    (V0.dofmap.element_dof_layout.entity_dofs 1 p).head? = some d →
    (V0.dofmap.cell_dofs cell)[d]? = some row →
    row = edge_dof e

/-- The dofmap `V1` is consistent with its element layout for the numbering
`vertex_dof` of the vertex dofs: wherever the lookup
`cell_dofs(c)[entity_dofs(0, p)[0]]` is defined, it is the dof of the vertex at
position `p` of the cell-to-vertex list of `c`. -/
def col_dofs_consistent (topology : mesh.Topology) (V1 : FunctionSpace)
    (vertex_dof : Nat → Nat) : Prop :=
  ∀ cell p v d col,
    ((topology.connectivity topology.dim 0).links cell)[p]? = some v →
    (V1.dofmap.element_dof_layout.entity_dofs 0 p).head? = some d →
    (V1.dofmap.cell_dofs cell)[d]? = some col →
    col = vertex_dof v

/-- The entry expected for the edge `e`: the dof of `e` as row, the dofs of the
vertices of its edge-to-vertex list as columns. -/
def incidence_call (topology : mesh.Topology) (edge_dof vertex_dof : Nat → Nat)
    (e : Nat) : la.Call :=
  la.Call.insert (edge_dof e) (((topology.connectivity 1 0).links e).map vertex_dof)

/-- The statement that the walker emits global indices: the call issued for
every edge whose body computes the process-local row `row` and columns `cols`
is the insert of their translations through the two index maps. -/
def emits_global_indices (ndebug : Bool) (V0 V1 : FunctionSpace) : Prop :=
  ∀ m q, V0.mesh = some m →
    (create_sparsity_discrete_gradient ndebug V0 V1).pattern = some q →
    ∀ e row cols, e < num_edges m.target.topology →
      edge_entry ndebug m.target.topology V0 V1 e = Except.ok (row, cols) →
      q.calls[e]? = some (la.Call.insert (V0.dofmap.index_map.local_to_global row)
        (cols.map V1.dofmap.index_map.local_to_global))

/-- The edge `e` has no incident cell. -/
def no_incident_cell (topology : mesh.Topology) (e : Nat) : Prop :=
  (topology.connectivity 1 topology.dim).links e = []

/-- The row layout attaches a number of dofs other than one to the local
position of the edge `e` in its first incident cell. -/
def row_cardinality_violated (topology : mesh.Topology) (V0 : FunctionSpace) (e : Nat) :
    Prop :=
  ∃ cell rest, (topology.connectivity 1 topology.dim).links e = cell :: rest ∧
    (V0.dofmap.element_dof_layout.entity_dofs 1
      (((topology.connectivity topology.dim 1).links cell).indexOf e)).length ≠ 1

/-- The column layout attaches a number of dofs other than one to the local
position, in the first incident cell of the edge `e`, of a vertex of `e`. -/
def col_cardinality_violated (topology : mesh.Topology) (V1 : FunctionSpace) (e : Nat) :
    Prop :=
  ∃ cell rest v, (topology.connectivity 1 topology.dim).links e = cell :: rest ∧
    v ∈ (topology.connectivity 1 0).links e ∧
    (V1.dofmap.element_dof_layout.entity_dofs 0
      (((topology.connectivity topology.dim 0).links cell).indexOf v)).length ≠ 1

/-- One triangle of a mesh of two disjoint triangles split over two processes,
as seen by the process that owns the entities `3 .. 5` of the 6 of each
kind. -/
def second_triangle_mesh : mesh.MeshPtr :=
  mesh_at 0 (triangle_topology triangle_e_to_v 3 6)

/-- Edge space on `second_triangle_mesh`. -/
def second_triangle_V0 : FunctionSpace :=
  one_dof_space second_triangle_mesh 1 (owned_index_map 3 3 6) [0, 1, 2]

/-- Nodal space on `second_triangle_mesh`. -/
def second_triangle_V1 : FunctionSpace :=
  one_dof_space second_triangle_mesh 0 (owned_index_map 3 3 6) [0, 1, 2]

/-- The triangle with an edge-to-vertex table that lists three vertices for
edge 0. -/
def three_vertex_edge_mesh : mesh.MeshPtr :=
  mesh_at 0 (triangle_topology [[1, 2, 0], [0, 2], [0, 1]] 0 3)

/-- Edge space on `three_vertex_edge_mesh`. -/
def three_vertex_edge_V0 : FunctionSpace :=
  one_dof_space three_vertex_edge_mesh 1 (owned_index_map 0 3 3) [0, 1, 2]

/-- Nodal space on `three_vertex_edge_mesh`. -/
def three_vertex_edge_V1 : FunctionSpace :=
  one_dof_space three_vertex_edge_mesh 0 (owned_index_map 0 3 3) [0, 1, 2]

/-- What the walker reads at the edge `e` of a well-formed mesh: `e` has at
least one incident cell and occurs in the cell-to-edge list of the first one,
`e` has exactly two vertices and both occur in the cell-to-vertex list of that
cell, the two lists of the cell have the entity counts of the reference cell,
and each layout attaches to every local edge (to every local vertex) exactly
one dof, which is in the range of the dof list of that cell. -/
def well_formed_at (topology : mesh.Topology) (V0 V1 : FunctionSpace) (e : Nat) : Prop :=
  ∃ cell rest v0 v1,
    (topology.connectivity 1 topology.dim).links e = cell :: rest ∧
    e ∈ (topology.connectivity topology.dim 1).links cell ∧
    (topology.connectivity 1 0).links e = [v0, v1] ∧
    v0 ∈ (topology.connectivity topology.dim 0).links cell ∧
    v1 ∈ (topology.connectivity topology.dim 0).links cell ∧
    ((topology.connectivity topology.dim 1).links cell).length
      = mesh.cell_num_entities topology.cell_type 1 ∧
    ((topology.connectivity topology.dim 0).links cell).length
      = mesh.cell_num_entities topology.cell_type 0 ∧
    (∀ p, p < mesh.cell_num_entities topology.cell_type 1 →
      ∃ d, V0.dofmap.element_dof_layout.entity_dofs 1 p = [d] ∧
        d < (V0.dofmap.cell_dofs cell).length) ∧
    (∀ p, p < mesh.cell_num_entities topology.cell_type 0 →
      ∃ d, V1.dofmap.element_dof_layout.entity_dofs 0 p = [d] ∧
        d < (V1.dofmap.cell_dofs cell).length)

/-- The search for `x` in the list `links` finds its target at a position that
is a key of the lookup table of `n` entries, the table holds exactly one dof
there, and that dof is an index into `dofs`. -/
def lookup_in_bounds (links : List Nat) (table : Nat → List Nat) (n : Nat)
    (dofs : List Nat) (x : Nat) : Prop :=
  links.indexOf x < links.length ∧ links.indexOf x < n ∧
  ∃ d, table (links.indexOf x) = [d] ∧ d < dofs.length

/-- Every read of the loop body for the edge `e` is in bounds and every
assertion of the body holds: `cells[0]` exists, both linear searches find
their target, both tables hold one dof at the positions found, the edge has
two vertices, and the reads of `dofs0` and `dofs1` are inside the lists. -/
def body_in_bounds (topology : mesh.Topology) (V0 V1 : FunctionSpace) (e : Nat) : Prop :=
  ∃ cell rest v0 v1,
    (topology.connectivity 1 topology.dim).links e = cell :: rest ∧
    (topology.connectivity 1 0).links e = [v0, v1] ∧
    lookup_in_bounds ((topology.connectivity topology.dim 1).links cell)
      (local_entity_dofs V0.dofmap.element_dof_layout 1
        (mesh.cell_num_entities topology.cell_type 1))
      (mesh.cell_num_entities topology.cell_type 1) (V0.dofmap.cell_dofs cell) e ∧
    lookup_in_bounds ((topology.connectivity topology.dim 0).links cell)
      (local_entity_dofs V1.dofmap.element_dof_layout 0
        (mesh.cell_num_entities topology.cell_type 0))
      (mesh.cell_num_entities topology.cell_type 0) (V1.dofmap.cell_dofs cell) v0 ∧
    lookup_in_bounds ((topology.connectivity topology.dim 0).links cell)
      (local_entity_dofs V1.dofmap.element_dof_layout 0
        (mesh.cell_num_entities topology.cell_type 0))
      (mesh.cell_num_entities topology.cell_type 0) (V1.dofmap.cell_dofs cell) v1

/-- What the assertions at lines 108, 117 and 126 check at the edge `e`: `e`
occurs in the cell-to-edge list of its first incident cell, `e` has exactly two
listed vertices, and each of them occurs in the cell-to-vertex list of that
cell. -/
def searches_succeed (topology : mesh.Topology) (e : Nat) : Prop :=
  ∀ cell rest, (topology.connectivity 1 topology.dim).links e = cell :: rest →
    e ∈ (topology.connectivity topology.dim 1).links cell ∧
    ((topology.connectivity 1 0).links e).length = 2 ∧
    ∀ v ∈ (topology.connectivity 1 0).links e,
      v ∈ (topology.connectivity topology.dim 0).links cell

/-- The statement of completeness under validation and consistency alone:
every call received at a position `e` below the number of local edges is the
entry expected for the edge `e`. -/
def completeness_claim (ndebug : Bool) (V0 V1 : FunctionSpace) (m : mesh.MeshPtr)
    (edge_dof vertex_dof : Nat → Nat) : Prop :=
  validated V0 V1 m →
  row_dofs_consistent m.target.topology V0 edge_dof →
  col_dofs_consistent m.target.topology V1 vertex_dof →
  ∀ q e call, (create_sparsity_discrete_gradient ndebug V0 V1).pattern = some q →
    e < (m.target.topology.index_map 1).size_local
      + (m.target.topology.index_map 1).num_ghosts →
    q.calls[e]? = some call →
    call = incidence_call m.target.topology edge_dof vertex_dof e

/-- The statement that a consistency violation at some local edge keeps the
call from returning a pattern. -/
def violation_aborts_claim (ndebug : Bool) (V0 V1 : FunctionSpace) (m : mesh.MeshPtr) :
    Prop :=
  validated V0 V1 m →
  ∀ e, e < (m.target.topology.index_map 1).size_local
      + (m.target.topology.index_map 1).num_ghosts →
    (no_incident_cell m.target.topology e ∨
      row_cardinality_violated m.target.topology V0 e ∨
      col_cardinality_violated m.target.topology V1 e) →
    ∀ q, (create_sparsity_discrete_gradient ndebug V0 V1).result ≠ Except.ok q

/-- Row space on the reference triangle whose layout attaches two dofs to every
local edge; its global dimension is the number of edges. -/
def two_dof_row_V0 : FunctionSpace :=
  { mesh := some triangle_mesh
    dofmap :=
      { element_dof_layout := { entity_dofs := fun d i => if d = 1 then [i, i] else [] }
        index_map := owned_index_map 0 3 3
        index_map_bs := 1
        cell_dofs := fun cell => if cell = 0 then [0, 1, 2] else [] } }

end fem

end dolfinx

/-! ## Dispatch of mesh refinement (`dolfin/refinement/refine.cpp`) -/

namespace dolfin

/-- Communicator, as far as `refine` reads it: its number of processes. -/
structure MPI_Comm where
  size : Nat

/-- The call `MPI::size(comm)`. -/
def MPI.size (comm : MPI_Comm) : Nat :=
  comm.size

/-- Mesh topology, as far as `refine` reads it: `dim()`. -/
structure MeshTopology where
  dim : Nat

/-- Mesh, as far as `refine` reads it. -/
structure Mesh where
  topology : MeshTopology
  mpi_comm : MPI_Comm

/-- The global parameter set, as far as `refine` reads it:
`parameters["refinement_algorithm"]`. -/
structure GlobalParameters where
  refinement_algorithm : String

/-- The refinement routine a call of `refine` hands over to, with the arguments
passed next to the two meshes, or the error it raises with `dolfin_error`. The
routines themselves are in other files. -/
inductive Step where
  | UniformMeshRefinement_refine
  | LocalMeshRefinement_refine (cell_markers : List Bool)
  | PlazaRefinementND_refine (cell_markers : Option (List Bool))
      (redistribute parent_facets : Bool)
  | dolfin_error (D : Nat)
  deriving DecidableEq, Repr

/-- The three branches of the dispatch. -/
inductive Branch where
  | serial_refinement
  | plaza
  | error
  deriving DecidableEq, Repr

/-- The branch a step belongs to. -/
def Step.branch : Step → Branch
  | Step.UniformMeshRefinement_refine => Branch.serial_refinement
  | Step.LocalMeshRefinement_refine _ => Branch.serial_refinement
  | Step.PlazaRefinementND_refine _ _ _ => Branch.plaza
  | Step.dolfin_error _ => Branch.error

/-- What a call of `refine` does: the warnings it logs and the step it takes. -/
structure Dispatch where
  warnings : List String
  step : Step

/-- Text of the warning logged in the Plaza branch. -/
def plaza_warning : String := "Using Plaza algorithm in parallel"

/-- The function `dolfin::refine(Mesh& refined_mesh, const Mesh& mesh,
bool redistribute)` (uniform refinement). -/
def refine_uniform (parameters : GlobalParameters) (mesh : Mesh) (redistribute : Bool) :
    Dispatch :=
  let D := mesh.topology.dim
  let refinement_algorithm := parameters.refinement_algorithm
  let parent_facets : Bool := decide (refinement_algorithm = "plaza_with_parent_facets")
  let serial : Bool := decide (MPI.size mesh.mpi_comm = 1)
  if serial = true ∧ (D = 1 ∨ refinement_algorithm = "regular_cut") then
    { warnings := [], step := Step.UniformMeshRefinement_refine }
  else if D = 2 ∨ D = 3 then
    { warnings := if refinement_algorithm = "regular_cut" then [plaza_warning] else []
      step := Step.PlazaRefinementND_refine none redistribute parent_facets }
  else
    { warnings := [], step := Step.dolfin_error D }

/-- The function `dolfin::refine(Mesh& refined_mesh, const Mesh& mesh,
const MeshFunction<bool>& cell_markers, bool redistribute)` (refinement of the
marked cells). -/
def refine_marked (parameters : GlobalParameters) (mesh : Mesh) (cell_markers : List Bool)
    (redistribute : Bool) : Dispatch :=
  let D := mesh.topology.dim
  let refinement_algorithm := parameters.refinement_algorithm
  let parent_facets : Bool := decide (refinement_algorithm = "plaza_with_parent_facets")
  let serial : Bool := decide (MPI.size mesh.mpi_comm = 1)
  if serial = true ∧ (D = 1 ∨ refinement_algorithm = "regular_cut") then
    { warnings := [], step := Step.LocalMeshRefinement_refine cell_markers }
  else if D = 2 ∨ D = 3 then
    { warnings := if refinement_algorithm = "regular_cut" then [plaza_warning] else []
      step := Step.PlazaRefinementND_refine (some cell_markers) redistribute parent_facets }
  else
    { warnings := [], step := Step.dolfin_error D }

/-- The condition of the first branch: the run is serial and the mesh has
dimension one or the algorithm is "regular_cut". -/
def serial_refinement_chosen (parameters : GlobalParameters) (mesh : Mesh) : Prop :=
  MPI.size mesh.mpi_comm = 1 ∧
    (mesh.topology.dim = 1 ∨ parameters.refinement_algorithm = "regular_cut")

end dolfin

/-! ## Lemmas on the loop -/

namespace dolfinx
namespace fem

theorem inserted_get (entry : Nat → Except Failure (Nat × List Nat)) :
    ∀ (es : List Nat) (i : Nat) (x : Nat × List Nat),
      (inserted entry es)[i]? = some x → ∃ e, es[i]? = some e ∧ entry e = Except.ok x := by
  intro es
  induction es with
  | nil => intro i x h; simp [inserted] at h
  | cons e es ih =>
    intro i x h
    unfold inserted at h
    cases hent : entry e with
    | error f => rw [hent] at h; simp at h
    | ok y =>
      rw [hent] at h
      cases i with
      | zero =>
        simp at h
        exact ⟨e, by simp, by rw [hent, h]⟩
      | succ i =>
        simp at h
        obtain ⟨e2, h1, h2⟩ := ih i x h
        exact ⟨e2, by simpa using h1, h2⟩

theorem inserted_length_le (entry : Nat → Except Failure (Nat × List Nat)) :
    ∀ es : List Nat, (inserted entry es).length ≤ es.length := by
  intro es
  induction es with
  | nil => simp [inserted]
  | cons e es ih =>
    unfold inserted
    cases entry e with
    | error f => simp
    | ok y => simpa using ih

theorem edge_loop_ok (entry : Nat → Except Failure (Nat × List Nat)) :
    ∀ (es : List Nat) (p : la.SparsityPattern) (t : List Nat) (q : la.SparsityPattern),
      (edge_loop entry es p t).result = Except.ok q →
        (edge_loop entry es p t).pattern = some q ∧
        (edge_loop entry es p t).traversed = t ++ es ∧
        (inserted entry es).length = es.length ∧
        q.calls = p.calls ++ (inserted entry es).map insert_call ++ [la.Call.assemble] := by
  intro es
  induction es with
  | nil =>
    intro p t q h
    simp only [edge_loop, Except.ok.injEq] at h
    subst h
    simp [edge_loop, inserted, la.SparsityPattern.assemble]
  | cons e es ih =>
    intro p t q h
    unfold edge_loop at h ⊢
    unfold inserted
    cases hent : entry e with
    | error f => rw [hent] at h; simp at h
    | ok y =>
      obtain ⟨row, cols⟩ := y
      rw [hent] at h
      simp only at h ⊢
      obtain ⟨h1, h2, h3, h4⟩ := ih _ _ q h
      refine ⟨h1, ?_, ?_, ?_⟩
      · rw [h2]; simp
      · simp [h3]
      · rw [h4]; simp [la.SparsityPattern.insert, insert_call]

theorem edge_loop_error (entry : Nat → Except Failure (Nat × List Nat)) :
    ∀ (es : List Nat) (p : la.SparsityPattern) (t : List Nat) (f : Failure),
      (edge_loop entry es p t).result = Except.error f →
        (∃ e ∈ es, entry e = Except.error f) ∧
        ∃ q, (edge_loop entry es p t).pattern = some q ∧
          q.calls = p.calls ++ (inserted entry es).map insert_call := by
  intro es
  induction es with
  | nil => intro p t f h; simp [edge_loop] at h
  | cons e es ih =>
    intro p t f h
    unfold edge_loop at h ⊢
    unfold inserted
    cases hent : entry e with
    | error g =>
      rw [hent] at h
      simp only [Except.error.injEq] at h
      subst h
      exact ⟨⟨e, by simp, hent⟩, p, by simp⟩
    | ok y =>
      obtain ⟨row, cols⟩ := y
      rw [hent] at h
      simp only at h ⊢
      obtain ⟨⟨e2, he2, hf⟩, q, hq, hc⟩ := ih _ _ f h
      refine ⟨⟨e2, by simp [he2], hf⟩, q, hq, ?_⟩
      rw [hc]; simp [la.SparsityPattern.insert, insert_call]

theorem edge_loop_all_ok (entry : Nat → Except Failure (Nat × List Nat)) :
    ∀ (es : List Nat) (p : la.SparsityPattern) (t : List Nat) (q : la.SparsityPattern),
      (edge_loop entry es p t).result = Except.ok q →
        ∀ e ∈ es, ∃ x, entry e = Except.ok x := by
  intro es
  induction es with
  | nil => intro p t q _ e he; simp at he
  | cons e es ih =>
    intro p t q h e2 he2
    unfold edge_loop at h
    cases hent : entry e with
    | error f => rw [hent] at h; simp at h
    | ok y =>
      obtain ⟨row, cols⟩ := y
      rw [hent] at h
      simp only at h
      rcases List.mem_cons.mp he2 with rfl | hmem
      · exact ⟨_, hent⟩
      · exact ih _ _ q h e2 hmem

theorem edge_loop_pattern_some (entry : Nat → Except Failure (Nat × List Nat)) :
    ∀ (es : List Nat) (p : la.SparsityPattern) (t : List Nat),
      ∃ q, (edge_loop entry es p t).pattern = some q := by
  intro es
  induction es with
  | nil => intro p t; exact ⟨_, rfl⟩
  | cons e es ih =>
    intro p t
    unfold edge_loop
    cases entry e with
    | error f => exact ⟨p, rfl⟩
    | ok y => obtain ⟨row, cols⟩ := y; exact ih _ _

theorem edge_loop_returns (entry : Nat → Except Failure (Nat × List Nat)) :
    ∀ (es : List Nat) (p : la.SparsityPattern) (t : List Nat),
      (∀ e ∈ es, ∃ x, entry e = Except.ok x) →
      ∃ q, (edge_loop entry es p t).result = Except.ok q := by
  intro es
  induction es with
  | nil => intro p t _; exact ⟨_, rfl⟩
  | cons e es ih =>
    intro p t h
    obtain ⟨x, hx⟩ := h e (by simp)
    obtain ⟨row, cols⟩ := x
    unfold edge_loop
    rw [hx]
    exact ih _ _ (fun e2 he2 => h e2 (List.mem_cons_of_mem _ he2))

/-! ## Lemmas on lists -/

theorem list_cons_of_head {α : Type} (l : List α) (a : α) (h : l[0]? = some a) :
    ∃ rest, l = a :: rest := by
  cases l with
  | nil => simp at h
  | cons b rest =>
    simp only [List.getElem?_cons_zero, Option.some.injEq] at h
    exact ⟨rest, by rw [h]⟩

theorem list_singleton_of_head {α : Type} (l : List α) (a : α) (hlen : l.length = 1)
    (h : l[0]? = some a) : l = [a] := by
  obtain ⟨rest, rfl⟩ := list_cons_of_head l a h
  cases rest with
  | nil => rfl
  | cons b rest => simp at hlen

theorem list_pair_of_reads {α : Type} (l : List α) (a b : α) (hlen : l.length = 2)
    (h0 : l[0]? = some a) (h1 : l[1]? = some b) : l = [a, b] := by
  obtain ⟨rest, rfl⟩ := list_cons_of_head l a h0
  have h1b : rest[0]? = some b := by simpa using h1
  have hlen1 : rest.length = 1 := by simpa using hlen
  rw [list_singleton_of_head rest b hlen1 h1b]

/-! ## Lemmas on the loop body -/

theorem vertex_col_inv (ndebug : Bool) (cell_vertices : List Nat)
    (local_vertex_dofs : Nat → List Nat) (dofs1 : List Nat) (v col : Nat)
    (h : vertex_col ndebug cell_vertices local_vertex_dofs dofs1 v = Except.ok col) :
    ∃ d, (local_vertex_dofs (cell_vertices.indexOf v))[0]? = some d ∧
      dofs1[d]? = some col ∧
      (ndebug = false → cell_vertices.indexOf v < cell_vertices.length ∧
        (local_vertex_dofs (cell_vertices.indexOf v)).length = 1) := by
  unfold vertex_col at h
  simp only at h
  split at h
  · simp at h
  · rename_i hne1
    split at h
    · simp at h
    · rename_i hne2
      split at h
      · simp at h
      · rename_i d hd
        split at h
        · simp at h
        · rename_i c hc
          simp only [Except.ok.injEq] at h
          subst h
          refine ⟨d, hd, hc, fun hnd => ⟨?_, ?_⟩⟩
          · exact lt_of_le_of_ne List.indexOf_le_length (fun heq => hne1 ⟨hnd, heq⟩)
          · by_contra hl
            exact hne2 ⟨hnd, hl⟩

theorem vertex_col_ok (cell_vertices : List Nat) (local_vertex_dofs : Nat → List Nat)
    (dofs1 : List Nat) (v col : Nat)
    (h : vertex_col false cell_vertices local_vertex_dofs dofs1 v = Except.ok col) :
    cell_vertices.indexOf v < cell_vertices.length ∧
    ∃ d, local_vertex_dofs (cell_vertices.indexOf v) = [d] ∧ dofs1[d]? = some col := by
  obtain ⟨d, hd, hc, hchk⟩ := vertex_col_inv false _ _ _ _ _ h
  obtain ⟨hlt, hlen⟩ := hchk rfl
  exact ⟨hlt, d, list_singleton_of_head _ d hlen hd, hc⟩

theorem vertex_col_error (ndebug : Bool) (cell_vertices : List Nat)
    (local_vertex_dofs : Nat → List Nat) (dofs1 : List Nat) (v : Nat) (f : Failure)
    (h : vertex_col ndebug cell_vertices local_vertex_dofs dofs1 v = Except.error f) :
    ∀ what, f ≠ Failure.runtime_error what := by
  intro what
  unfold vertex_col at h
  simp only at h
  split at h
  · simp only [Except.error.injEq] at h; subst h; simp
  · split at h
    · simp only [Except.error.injEq] at h; subst h; simp
    · split at h
      · simp only [Except.error.injEq] at h; subst h; simp
      · split at h
        · simp only [Except.error.injEq] at h; subst h; simp
        · simp at h

theorem edge_entry_inv (ndebug : Bool) (topology : mesh.Topology) (V0 V1 : FunctionSpace)
    (e : Nat) (x : Nat × List Nat)
    (h : edge_entry ndebug topology V0 V1 e = Except.ok x) :
    ∃ cell d v0 v1 col0 col1,
      ((topology.connectivity 1 topology.dim).links e)[0]? = some cell ∧
      (local_entity_dofs V0.dofmap.element_dof_layout 1
        (mesh.cell_num_entities topology.cell_type 1)
        (((topology.connectivity topology.dim 1).links cell).indexOf e))[0]? = some d ∧
      (V0.dofmap.cell_dofs cell)[d]? = some x.1 ∧
      ((topology.connectivity 1 0).links e)[0]? = some v0 ∧
      ((topology.connectivity 1 0).links e)[1]? = some v1 ∧
      vertex_col ndebug ((topology.connectivity topology.dim 0).links cell)
        (local_entity_dofs V1.dofmap.element_dof_layout 0
          (mesh.cell_num_entities topology.cell_type 0))
        (V1.dofmap.cell_dofs cell) v0 = Except.ok col0 ∧
      vertex_col ndebug ((topology.connectivity topology.dim 0).links cell)
        (local_entity_dofs V1.dofmap.element_dof_layout 0
          (mesh.cell_num_entities topology.cell_type 0))
        (V1.dofmap.cell_dofs cell) v1 = Except.ok col1 ∧
      x.2 = [col0, col1] ∧
      (ndebug = false →
        ((topology.connectivity topology.dim 1).links cell).indexOf e
          < ((topology.connectivity topology.dim 1).links cell).length ∧
        (local_entity_dofs V0.dofmap.element_dof_layout 1
          (mesh.cell_num_entities topology.cell_type 1)
          (((topology.connectivity topology.dim 1).links cell).indexOf e)).length = 1 ∧
        ((topology.connectivity 1 0).links e).length = 2) := by
  unfold edge_entry at h
  simp only at h
  split at h
  · simp at h
  · split at h
    · simp at h
    · rename_i cell hcell
      split at h
      · simp at h
      · rename_i hne1
        split at h
        · simp at h
        · rename_i hne2
          split at h
          · simp at h
          · rename_i d hd
            split at h
            · simp at h
            · rename_i row hrow
              split at h
              · simp at h
              · rename_i hne3
                split at h
                · simp at h
                · rename_i v0 hv0
                  split at h
                  · simp at h
                  · rename_i col0 hc0
                    split at h
                    · simp at h
                    · rename_i v1 hv1
                      split at h
                      · simp at h
                      · rename_i col1 hc1
                        simp only [Except.ok.injEq] at h
                        subst h
                        refine ⟨cell, d, v0, v1, col0, col1, hcell, hd, hrow, hv0, hv1,
                          hc0, hc1, rfl, fun hnd => ⟨?_, ?_, ?_⟩⟩
                        · exact lt_of_le_of_ne List.indexOf_le_length
                            (fun heq => hne1 ⟨hnd, heq⟩)
                        · by_contra hl
                          exact hne2 ⟨hnd, hl⟩
                        · by_contra hl
                          exact hne3 ⟨hnd, hl⟩

theorem edge_entry_ok (topology : mesh.Topology) (V0 V1 : FunctionSpace) (e : Nat)
    (x : Nat × List Nat) (h : edge_entry false topology V0 V1 e = Except.ok x) :
    ∃ cell rest d v0 v1 col0 col1,
      (topology.connectivity 1 topology.dim).links e = cell :: rest ∧
      ((topology.connectivity topology.dim 1).links cell).indexOf e
        < ((topology.connectivity topology.dim 1).links cell).length ∧
      local_entity_dofs V0.dofmap.element_dof_layout 1
        (mesh.cell_num_entities topology.cell_type 1)
        (((topology.connectivity topology.dim 1).links cell).indexOf e) = [d] ∧
      (V0.dofmap.cell_dofs cell)[d]? = some x.1 ∧
      (topology.connectivity 1 0).links e = [v0, v1] ∧
      vertex_col false ((topology.connectivity topology.dim 0).links cell)
        (local_entity_dofs V1.dofmap.element_dof_layout 0
          (mesh.cell_num_entities topology.cell_type 0))
        (V1.dofmap.cell_dofs cell) v0 = Except.ok col0 ∧
      vertex_col false ((topology.connectivity topology.dim 0).links cell)
        (local_entity_dofs V1.dofmap.element_dof_layout 0
          (mesh.cell_num_entities topology.cell_type 0))
        (V1.dofmap.cell_dofs cell) v1 = Except.ok col1 ∧
      x.2 = [col0, col1] := by
  obtain ⟨cell, d, v0, v1, col0, col1, hcell, hd, hrow, hv0, hv1, hc0, hc1, hx, hchk⟩ :=
    edge_entry_inv false topology V0 V1 e x h
  obtain ⟨hlt, hlen, hvl⟩ := hchk rfl
  obtain ⟨rest, hcells⟩ := list_cons_of_head _ cell hcell
  exact ⟨cell, rest, d, v0, v1, col0, col1, hcells, hlt,
    list_singleton_of_head _ d hlen hd, hrow, list_pair_of_reads _ v0 v1 hvl hv0 hv1,
    hc0, hc1, hx⟩

theorem edge_entry_error (ndebug : Bool) (topology : mesh.Topology) (V0 V1 : FunctionSpace)
    (e : Nat) (f : Failure) (h : edge_entry ndebug topology V0 V1 e = Except.error f) :
    ∀ what, f ≠ Failure.runtime_error what := by
  intro what
  unfold edge_entry at h
  simp only at h
  split at h
  · simp only [Except.error.injEq] at h; subst h; simp
  · split at h
    · simp only [Except.error.injEq] at h; subst h; simp
    · split at h
      · simp only [Except.error.injEq] at h; subst h; simp
      · split at h
        · simp only [Except.error.injEq] at h; subst h; simp
        · split at h
          · simp only [Except.error.injEq] at h; subst h; simp
          · split at h
            · simp only [Except.error.injEq] at h; subst h; simp
            · split at h
              · simp only [Except.error.injEq] at h; subst h; simp
              · split at h
                · simp only [Except.error.injEq] at h; subst h; simp
                · split at h
                  · rename_i g hg
                    simp only [Except.error.injEq] at h; subst h
                    exact vertex_col_error _ _ _ _ _ _ hg what
                  · split at h
                    · simp only [Except.error.injEq] at h; subst h; simp
                    · split at h
                      · rename_i g hg
                        simp only [Except.error.injEq] at h; subst h
                        exact vertex_col_error _ _ _ _ _ _ hg what
                      · simp at h

/-! ## Lemmas on the whole call -/

theorem create_of_validated (ndebug : Bool) (V0 V1 : FunctionSpace) (m : mesh.MeshPtr)
    (h : validated V0 V1 m) :
    create_sparsity_discrete_gradient ndebug V0 V1 =
      if ndebug = false ∧ V0.dofmap.index_map_bs ≠ V1.dofmap.index_map_bs then
        Run.stopped (Failure.assertion_failed "block_sizes[0] == block_sizes[1]")
      else
        edge_loop (edge_entry ndebug m.target.topology V0 V1)
          (List.range (num_edges m.target.topology)) (fresh_pattern V0 V1 m) [] := by
  obtain ⟨h0, ⟨m1, h1, haddr⟩, hrow, hcol⟩ := h
  unfold create_sparsity_discrete_gradient
  rw [h0, h1]
  simp only [Option.isNone_some, Bool.false_eq_true, and_false, if_false, Option.map_some',
    haddr, ne_eq, not_true_eq_false, hrow, hcol, fresh_pattern]

theorem create_stopped_or_loop (ndebug : Bool) (V0 V1 : FunctionSpace) :
    (∃ f, create_sparsity_discrete_gradient ndebug V0 V1 = Run.stopped f) ∨
    (∃ m, validated V0 V1 m ∧
      (ndebug = false → V0.dofmap.index_map_bs = V1.dofmap.index_map_bs) ∧
      create_sparsity_discrete_gradient ndebug V0 V1 =
        edge_loop (edge_entry ndebug m.target.topology V0 V1)
          (List.range (num_edges m.target.topology)) (fresh_pattern V0 V1 m) []) := by
  cases hm0 : V0.mesh with
  | none =>
    left
    unfold create_sparsity_discrete_gradient
    rw [hm0]
    split
    · exact ⟨_, rfl⟩
    · split
      · exact ⟨_, rfl⟩
      · split
        · exact ⟨_, rfl⟩
        · exact ⟨_, rfl⟩
  | some m =>
    cases hm1 : V1.mesh with
    | none =>
      left
      unfold create_sparsity_discrete_gradient
      rw [hm0, hm1]
      split
      · exact ⟨_, rfl⟩
      · split
        · exact ⟨_, rfl⟩
        · split
          · exact ⟨_, rfl⟩
          · rename_i hptr
            simp at hptr
    | some m1 =>
      by_cases haddr : m.addr = m1.addr
      · by_cases hrow : global_dim V0 = (m.target.topology.index_map 1).size_global
        · by_cases hcol : global_dim V1 = (m.target.topology.index_map 0).size_global
          · have hv : validated V0 V1 m := ⟨hm0, ⟨m1, hm1, haddr⟩, hrow, hcol⟩
            rw [create_of_validated ndebug V0 V1 m hv]
            by_cases hbs : ndebug = false ∧ V0.dofmap.index_map_bs ≠ V1.dofmap.index_map_bs
            · left; rw [if_pos hbs]; exact ⟨_, rfl⟩
            · right
              rw [if_neg hbs]
              refine ⟨m, hv, fun hnd => ?_, rfl⟩
              by_contra hne
              exact hbs ⟨hnd, hne⟩
          · left
            unfold create_sparsity_discrete_gradient
            rw [hm0, hm1]
            simp only [Option.isNone_some, Bool.false_eq_true, and_false, if_false,
              Option.map_some', haddr, ne_eq, not_true_eq_false, hrow, hcol]
            exact ⟨_, rfl⟩
        · left
          unfold create_sparsity_discrete_gradient
          rw [hm0, hm1]
          simp only [Option.isNone_some, Bool.false_eq_true, and_false, if_false,
            Option.map_some', haddr, ne_eq, not_true_eq_false, hrow]
          exact ⟨_, rfl⟩
      · left
        unfold create_sparsity_discrete_gradient
        rw [hm0, hm1]
        simp only [Option.isNone_some, Bool.false_eq_true, and_false, if_false,
          Option.map_some', ne_eq, Option.some.injEq, haddr, not_false_eq_true, if_true]
        exact ⟨_, rfl⟩

theorem create_pattern_some (ndebug : Bool) (V0 V1 : FunctionSpace) (q : la.SparsityPattern)
    (h : (create_sparsity_discrete_gradient ndebug V0 V1).pattern = some q) :
    ∃ m, validated V0 V1 m ∧
      (ndebug = false → V0.dofmap.index_map_bs = V1.dofmap.index_map_bs) ∧
      create_sparsity_discrete_gradient ndebug V0 V1 =
        edge_loop (edge_entry ndebug m.target.topology V0 V1)
          (List.range (num_edges m.target.topology)) (fresh_pattern V0 V1 m) [] := by
  rcases create_stopped_or_loop ndebug V0 V1 with ⟨f, hf⟩ | hloop
  · rw [hf] at h
    simp [Run.stopped] at h
  · exact hloop

theorem create_result_ok (ndebug : Bool) (V0 V1 : FunctionSpace) (q : la.SparsityPattern)
    (h : (create_sparsity_discrete_gradient ndebug V0 V1).result = Except.ok q) :
    (create_sparsity_discrete_gradient ndebug V0 V1).pattern = some q := by
  rcases create_stopped_or_loop ndebug V0 V1 with ⟨f, hf⟩ | ⟨m, _, _, heq⟩
  · rw [hf] at h
    simp [Run.stopped] at h
  · rw [heq] at h ⊢
    exact (edge_loop_ok _ _ _ _ q h).1

theorem create_runtime_error (ndebug : Bool) (V0 V1 : FunctionSpace) (what : String)
    (h : (create_sparsity_discrete_gradient ndebug V0 V1).result
      = Except.error (Failure.runtime_error what)) :
    create_sparsity_discrete_gradient ndebug V0 V1
      = Run.stopped (Failure.runtime_error what) := by
  rcases create_stopped_or_loop ndebug V0 V1 with ⟨f, hf⟩ | ⟨m, _, _, heq⟩
  · rw [hf] at h ⊢
    simp only [Run.stopped, Except.error.injEq] at h
    rw [h]
  · rw [heq] at h
    obtain ⟨⟨e, _, he⟩, _⟩ := edge_loop_error _ _ _ _ _ h
    exact absurd rfl (edge_entry_error _ _ _ _ _ _ he what)

theorem create_call_at (ndebug : Bool) (V0 V1 : FunctionSpace) (m : mesh.MeshPtr)
    (q : la.SparsityPattern) (hm : V0.mesh = some m)
    (hq : (create_sparsity_discrete_gradient ndebug V0 V1).pattern = some q)
    (e : Nat) (call : la.Call) (he : e < num_edges m.target.topology)
    (hcall : q.calls[e]? = some call) :
    ∃ x, edge_entry ndebug m.target.topology V0 V1 e = Except.ok x ∧
      call = insert_call x := by
  obtain ⟨m2, hv, _, heq⟩ := create_pattern_some ndebug V0 V1 q hq
  have hmm : m2 = m := by
    have := hv.1
    rw [hm] at this
    exact (Option.some.inj this).symm
  subst hmm
  have hins : ∃ x, (inserted (edge_entry ndebug m2.target.topology V0 V1)
      (List.range (num_edges m2.target.topology)))[e]? = some x ∧ call = insert_call x := by
    cases hres : (create_sparsity_discrete_gradient ndebug V0 V1).result with
    | ok q2 =>
      rw [heq] at hres hq
      obtain ⟨h1, _, h3, h4⟩ := edge_loop_ok _ _ _ _ q2 hres
      rw [h1] at hq
      have hqq : q2 = q := Option.some.inj hq
      subst hqq
      have hlen : e < ((inserted (edge_entry ndebug m2.target.topology V0 V1)
          (List.range (num_edges m2.target.topology))).map insert_call).length := by
        rw [List.length_map, h3, List.length_range]; exact he
      rw [h4] at hcall
      simp only [fresh_pattern, la.SparsityPattern.create, List.nil_append] at hcall
      rw [List.getElem?_append_left hlen, List.getElem?_map] at hcall
      cases hx : (inserted (edge_entry ndebug m2.target.topology V0 V1)
          (List.range (num_edges m2.target.topology)))[e]? with
      | none => rw [hx] at hcall; simp at hcall
      | some x =>
        rw [hx] at hcall
        simp only [Option.map_some', Option.some.injEq] at hcall
        exact ⟨x, rfl, hcall.symm⟩
    | error f =>
      rw [heq] at hres hq
      obtain ⟨_, q2, h1, h2⟩ := edge_loop_error _ _ _ _ f hres
      rw [h1] at hq
      have hqq : q2 = q := Option.some.inj hq
      subst hqq
      rw [h2] at hcall
      simp only [fresh_pattern, la.SparsityPattern.create, List.nil_append] at hcall
      rw [List.getElem?_map] at hcall
      cases hx : (inserted (edge_entry ndebug m2.target.topology V0 V1)
          (List.range (num_edges m2.target.topology)))[e]? with
      | none => rw [hx] at hcall; simp at hcall
      | some x =>
        rw [hx] at hcall
        simp only [Option.map_some', Option.some.injEq] at hcall
        exact ⟨x, rfl, hcall.symm⟩
  obtain ⟨x, hx, hc⟩ := hins
  obtain ⟨e2, he2, hent⟩ := inserted_get _ _ _ _ hx
  rw [List.getElem?_range he] at he2
  have : e = e2 := Option.some.inj he2
  subst this
  exact ⟨x, hent, hc⟩

theorem create_ok_calls (ndebug : Bool) (V0 V1 : FunctionSpace) (m : mesh.MeshPtr)
    (q : la.SparsityPattern) (hm : V0.mesh = some m)
    (hres : (create_sparsity_discrete_gradient ndebug V0 V1).result = Except.ok q) :
    (create_sparsity_discrete_gradient ndebug V0 V1).traversed
        = List.range (num_edges m.target.topology) ∧
    (inserted (edge_entry ndebug m.target.topology V0 V1)
        (List.range (num_edges m.target.topology))).length = num_edges m.target.topology ∧
    q.calls = (inserted (edge_entry ndebug m.target.topology V0 V1)
        (List.range (num_edges m.target.topology))).map insert_call ++ [la.Call.assemble] := by
  have hq := create_result_ok ndebug V0 V1 q hres
  obtain ⟨m2, hv, _, heq⟩ := create_pattern_some ndebug V0 V1 q hq
  have hmm : m2 = m := by
    have := hv.1
    rw [hm] at this
    exact (Option.some.inj this).symm
  subst hmm
  rw [heq] at hres ⊢
  obtain ⟨_, h2, h3, h4⟩ := edge_loop_ok _ _ _ _ q hres
  refine ⟨by simpa using h2, by simpa using h3, ?_⟩
  rw [h4]
  simp [fresh_pattern, la.SparsityPattern.create]

theorem local_entity_dofs_singleton (layout : ElementDofLayout) (dim n i d : Nat)
    (h : local_entity_dofs layout dim n i = [d]) :
    i < n ∧ layout.entity_dofs dim i = [d] := by
  unfold local_entity_dofs at h
  split at h
  · rename_i hlt; exact ⟨hlt, h⟩
  · simp at h

theorem local_entity_dofs_head (layout : ElementDofLayout) (dim n i d : Nat)
    (h : (local_entity_dofs layout dim n i)[0]? = some d) :
    i < n ∧ (layout.entity_dofs dim i).head? = some d := by
  unfold local_entity_dofs at h
  split at h
  · rename_i hlt; exact ⟨hlt, by rw [List.head?_eq_getElem?]; exact h⟩
  · simp at h

theorem vertex_col_consistent (ndebug : Bool) (topology : mesh.Topology)
    (V1 : FunctionSpace) (vertex_dof : Nat → Nat)
    (hV : col_dofs_consistent topology V1 vertex_dof) (cell v col : Nat)
    (hmem : v ∈ (topology.connectivity topology.dim 0).links cell)
    (h : vertex_col ndebug ((topology.connectivity topology.dim 0).links cell)
      (local_entity_dofs V1.dofmap.element_dof_layout 0
        (mesh.cell_num_entities topology.cell_type 0))
      (V1.dofmap.cell_dofs cell) v = Except.ok col) :
    col = vertex_dof v := by
  obtain ⟨d, hd, hcol, _⟩ := vertex_col_inv _ _ _ _ _ _ h
  obtain ⟨_, hlay⟩ := local_entity_dofs_head _ _ _ _ _ hd
  exact hV cell _ v d col (List.getElem?_indexOf hmem) hlay hcol

theorem edge_entry_consistent (ndebug : Bool) (topology : mesh.Topology)
    (V0 V1 : FunctionSpace) (edge_dof vertex_dof : Nat → Nat)
    (hE : row_dofs_consistent topology V0 edge_dof)
    (hV : col_dofs_consistent topology V1 vertex_dof)
    (e : Nat) (x : Nat × List Nat)
    (hs : ndebug = true → searches_succeed topology e)
    (h : edge_entry ndebug topology V0 V1 e = Except.ok x) :
    insert_call x = incidence_call topology edge_dof vertex_dof e := by
  obtain ⟨cell, d, v0, v1, col0, col1, hcell, hd, hrow, hv0, hv1, hc0, hc1, hx, hchk⟩ :=
    edge_entry_inv ndebug topology V0 V1 e x h
  obtain ⟨rest, hcells⟩ := list_cons_of_head _ cell hcell
  have hfacts : e ∈ (topology.connectivity topology.dim 1).links cell ∧
      ((topology.connectivity 1 0).links e).length = 2 ∧
      v0 ∈ (topology.connectivity topology.dim 0).links cell ∧
      v1 ∈ (topology.connectivity topology.dim 0).links cell := by
    rcases Bool.eq_false_or_eq_true ndebug with hnd | hnd
    · obtain ⟨he, hvl, hall⟩ := hs hnd cell rest hcells
      exact ⟨he, hvl, hall v0 (List.getElem?_mem hv0), hall v1 (List.getElem?_mem hv1)⟩
    · obtain ⟨hlt, _, hvl⟩ := hchk hnd
      obtain ⟨_, _, _, hk0⟩ := vertex_col_inv _ _ _ _ _ _ hc0
      obtain ⟨_, _, _, hk1⟩ := vertex_col_inv _ _ _ _ _ _ hc1
      exact ⟨List.indexOf_lt_length.mp hlt, hvl, List.indexOf_lt_length.mp (hk0 hnd).1,
        List.indexOf_lt_length.mp (hk1 hnd).1⟩
  obtain ⟨he, hvl, hm0, hm1⟩ := hfacts
  obtain ⟨_, hlay⟩ := local_entity_dofs_head _ _ _ _ _ hd
  have hr : x.1 = edge_dof e := hE cell _ e d x.1 (List.getElem?_indexOf he) hlay hrow
  have h0 := vertex_col_consistent ndebug topology V1 vertex_dof hV cell v0 col0 hm0 hc0
  have h1 := vertex_col_consistent ndebug topology V1 vertex_dof hV cell v1 col1 hm1 hc1
  unfold insert_call incidence_call
  rw [hr, hx, list_pair_of_reads _ v0 v1 hvl hv0 hv1, h0, h1]
  rfl

theorem triangle_validated (r c : List Nat) :
    validated (triangle_V0 r) (triangle_V1 c) triangle_mesh :=
  ⟨rfl, ⟨triangle_mesh, rfl, rfl⟩, rfl, rfl⟩

theorem triangle_row_consistent :
    row_dofs_consistent triangle_mesh.target.topology (triangle_V0 [0, 1, 2]) id := by
  intro cell p e d row h1 h2 h3
  rcases cell with _ | cell
  · simp only [triangle_V0, one_dof_space, if_true, List.head?_cons,
      Option.some.injEq] at h2 h3
    subst h2
    rcases p with _ | _ | _ | p
    · have e1 : some 0 = some e := h1
      have e3 : some 0 = some row := h3
      simp only [Option.some.injEq] at e1 e3
      simp only [id]; omega
    · have e1 : some 1 = some e := h1
      have e3 : some 1 = some row := h3
      simp only [Option.some.injEq] at e1 e3
      simp only [id]; omega
    · have e1 : some 2 = some e := h1
      have e3 : some 2 = some row := h3
      simp only [Option.some.injEq] at e1 e3
      simp only [id]; omega
    · have e1 : (none : Option Nat) = some e := h1
      simp at e1
  · have e1 : (none : Option Nat) = some e := h1
    simp at e1

theorem triangle_col_consistent :
    col_dofs_consistent triangle_mesh.target.topology (triangle_V1 [0, 1, 2]) id := by
  intro cell p v d col h1 h2 h3
  rcases cell with _ | cell
  · simp only [triangle_V1, one_dof_space, if_true, List.head?_cons,
      Option.some.injEq] at h2 h3
    subst h2
    rcases p with _ | _ | _ | p
    · have e1 : some 0 = some v := h1
      have e3 : some 0 = some col := h3
      simp only [Option.some.injEq] at e1 e3
      simp only [id]; omega
    · have e1 : some 1 = some v := h1
      have e3 : some 1 = some col := h3
      simp only [Option.some.injEq] at e1 e3
      simp only [id]; omega
    · have e1 : some 2 = some v := h1
      have e3 : some 2 = some col := h3
      simp only [Option.some.injEq] at e1 e3
      simp only [id]; omega
    · have e1 : (none : Option Nat) = some v := h1
      simp at e1
  · have e1 : (none : Option Nat) = some v := h1
    simp at e1

theorem violation_blocks_entry (topology : mesh.Topology) (V0 V1 : FunctionSpace) (e : Nat)
    (hbad : no_incident_cell topology e ∨ row_cardinality_violated topology V0 e ∨
      col_cardinality_violated topology V1 e)
    (x : Nat × List Nat) : edge_entry false topology V0 V1 e ≠ Except.ok x := by
  intro h
  obtain ⟨cell, rest, d, v0, v1, col0, col1, hcells, _, hd, _, hv, hc0, hc1, _⟩ :=
    edge_entry_ok topology V0 V1 e x h
  rcases hbad with hnone | ⟨cell2, rest2, hcells2, hlen⟩ | ⟨cell2, rest2, v, hcells2, hmem, hlen⟩
  · unfold no_incident_cell at hnone
    rw [hnone] at hcells
    simp at hcells
  · rw [hcells] at hcells2
    have hcc : cell = cell2 := (List.cons.inj hcells2).1
    subst hcc
    obtain ⟨_, hlay⟩ := local_entity_dofs_singleton _ _ _ _ _ hd
    rw [hlay] at hlen
    simp at hlen
  · rw [hcells] at hcells2
    have hcc : cell = cell2 := (List.cons.inj hcells2).1
    subst hcc
    rw [hv] at hmem
    have hcol : ∃ col, vertex_col false ((topology.connectivity topology.dim 0).links cell)
        (local_entity_dofs V1.dofmap.element_dof_layout 0
          (mesh.cell_num_entities topology.cell_type 0))
        (V1.dofmap.cell_dofs cell) v = Except.ok col := by
      simp only [List.mem_cons, List.mem_singleton, List.not_mem_nil, or_false] at hmem
      rcases hmem with rfl | rfl
      · exact ⟨col0, hc0⟩
      · exact ⟨col1, hc1⟩
    obtain ⟨col, hcol⟩ := hcol
    obtain ⟨_, d1, hd1, _⟩ := vertex_col_ok _ _ _ _ _ hcol
    obtain ⟨_, hlay⟩ := local_entity_dofs_singleton _ _ _ _ _ hd1
    rw [hlay] at hlen
    simp at hlen

theorem triangle_searches (e : Nat) (he : e < 3) :
    searches_succeed triangle_mesh.target.topology e := by
  intro cell rest hcells
  rcases e with _ | _ | _ | e
  · have hc : [0] = cell :: rest := hcells
    simp only [List.cons.injEq] at hc
    obtain ⟨rfl, _⟩ := hc
    exact ⟨by decide, rfl, by decide⟩
  · have hc : [0] = cell :: rest := hcells
    simp only [List.cons.injEq] at hc
    obtain ⟨rfl, _⟩ := hc
    exact ⟨by decide, rfl, by decide⟩
  · have hc : [0] = cell :: rest := hcells
    simp only [List.cons.injEq] at hc
    obtain ⟨rfl, _⟩ := hc
    exact ⟨by decide, rfl, by decide⟩
  · omega

theorem three_vertex_edge_row_consistent :
    row_dofs_consistent three_vertex_edge_mesh.target.topology three_vertex_edge_V0 id := by
  intro cell p e d row h1 h2 h3
  rcases cell with _ | cell
  · simp only [three_vertex_edge_V0, one_dof_space, if_true, List.head?_cons,
      Option.some.injEq] at h2 h3
    subst h2
    rcases p with _ | _ | _ | p
    · have e1 : some 0 = some e := h1
      have e3 : some 0 = some row := h3
      simp only [Option.some.injEq] at e1 e3
      simp only [id]; omega
    · have e1 : some 1 = some e := h1
      have e3 : some 1 = some row := h3
      simp only [Option.some.injEq] at e1 e3
      simp only [id]; omega
    · have e1 : some 2 = some e := h1
      have e3 : some 2 = some row := h3
      simp only [Option.some.injEq] at e1 e3
      simp only [id]; omega
    · have e1 : (none : Option Nat) = some e := h1
      simp at e1
  · have e1 : (none : Option Nat) = some e := h1
    simp at e1

theorem three_vertex_edge_col_consistent :
    col_dofs_consistent three_vertex_edge_mesh.target.topology three_vertex_edge_V1 id := by
  intro cell p v d col h1 h2 h3
  rcases cell with _ | cell
  · simp only [three_vertex_edge_V1, one_dof_space, if_true, List.head?_cons,
      Option.some.injEq] at h2 h3
    subst h2
    rcases p with _ | _ | _ | p
    · have e1 : some 0 = some v := h1
      have e3 : some 0 = some col := h3
      simp only [Option.some.injEq] at e1 e3
      simp only [id]; omega
    · have e1 : some 1 = some v := h1
      have e3 : some 1 = some col := h3
      simp only [Option.some.injEq] at e1 e3
      simp only [id]; omega
    · have e1 : some 2 = some v := h1
      have e3 : some 2 = some col := h3
      simp only [Option.some.injEq] at e1 e3
      simp only [id]; omega
    · have e1 : (none : Option Nat) = some v := h1
      simp at e1
  · have e1 : (none : Option Nat) = some v := h1
    simp at e1

/-- C1: when both mesh pointers are non-null and point to different mesh
instances, the call throws the runtime error "Function spaces do not share the
same mesh" and no accumulator exists, whatever the dof maps of the two spaces
are, with and without `NDEBUG`. -/
theorem mesh_mismatch_throws (ndebug : Bool) (V0 V1 : FunctionSpace)
    (m0 m1 : mesh.MeshPtr)
    (h0 : V0.mesh = some m0) (h1 : V1.mesh = some m1) (hne : m0.addr ≠ m1.addr) :
    (create_sparsity_discrete_gradient ndebug V0 V1).result
      = Except.error (Failure.runtime_error mesh_mismatch_what) ∧
    (create_sparsity_discrete_gradient ndebug V0 V1).pattern = none := by
  unfold create_sparsity_discrete_gradient
  rw [h0, h1]
  simp [hne, Run.stopped]

/-- Witness of C1: an edge space on the triangle at address 0 and a nodal space
on a copy of it at address 1. -/
theorem mesh_mismatch_throws_witness :
    (create_sparsity_discrete_gradient false (triangle_V0 [0, 1, 2])
      (one_dof_space (mesh_at 1 (triangle_topology triangle_e_to_v 0 3)) 0
        (owned_index_map 0 3 3) [0, 1, 2])).result
      = Except.error (Failure.runtime_error mesh_mismatch_what) ∧
    (create_sparsity_discrete_gradient false (triangle_V0 [0, 1, 2])
      (one_dof_space (mesh_at 1 (triangle_topology triangle_e_to_v 0 3)) 0
        (owned_index_map 0 3 3) [0, 1, 2])).pattern = none :=
  mesh_mismatch_throws false _ _ triangle_mesh
    (mesh_at 1 (triangle_topology triangle_e_to_v 0 3)) rfl rfl (by decide)

/-- C4: whenever the call ends with a thrown runtime error (the mesh-mismatch,
row-shape and column-shape errors are the only ones thrown, and `what` is one
of their three messages), the accumulator has not been constructed, so it has
received no insert and no assemble, and no edge has been traversed, with and
without `NDEBUG`. -/
theorem validation_fails_before_pattern (ndebug : Bool) (V0 V1 : FunctionSpace)
    (what : String)
    (h : (create_sparsity_discrete_gradient ndebug V0 V1).result
      = Except.error (Failure.runtime_error what)) :
    (create_sparsity_discrete_gradient ndebug V0 V1).pattern = none ∧
    (create_sparsity_discrete_gradient ndebug V0 V1).traversed = [] ∧
    (what = mesh_mismatch_what ∨ what = row_shape_what ∨ what = col_shape_what) := by
  have hstop := create_runtime_error ndebug V0 V1 what h
  refine ⟨by rw [hstop]; rfl, by rw [hstop]; rfl, ?_⟩
  unfold create_sparsity_discrete_gradient at h
  split at h
  · simp [Run.stopped] at h
  · split at h
    · simp [Run.stopped] at h
    · split at h
      · simp only [Run.stopped, Except.error.injEq, Failure.runtime_error.injEq] at h
        exact Or.inl h.symm
      · split at h
        · simp [Run.stopped] at h
        · simp only at h
          split at h
          · simp only [Run.stopped, Except.error.injEq, Failure.runtime_error.injEq] at h
            exact Or.inr (Or.inl h.symm)
          · split at h
            · simp only [Run.stopped, Except.error.injEq, Failure.runtime_error.injEq] at h
              exact Or.inr (Or.inr h.symm)
            · split at h
              · simp [Run.stopped] at h
              · obtain ⟨⟨e, _, he⟩, _⟩ := edge_loop_error _ _ _ _ _ h
                exact absurd rfl (edge_entry_error _ _ _ _ _ _ he what)

/-- Witness of C4: the row-shape error on the triangle. -/
theorem validation_fails_before_pattern_witness :
    (create_sparsity_discrete_gradient false
      (one_dof_space triangle_mesh 1 (owned_index_map 0 3 4) [0, 1, 2])
      (triangle_V1 [0, 1, 2])).pattern = none ∧
    (create_sparsity_discrete_gradient false
      (one_dof_space triangle_mesh 1 (owned_index_map 0 3 4) [0, 1, 2])
      (triangle_V1 [0, 1, 2])).traversed = [] ∧
    (row_shape_what = mesh_mismatch_what ∨ row_shape_what = row_shape_what
      ∨ row_shape_what = col_shape_what) :=
  validation_fails_before_pattern false _ _ row_shape_what rfl

/-! ## The incidence walker -/

/-- C5, refuted as stated: built with `NDEBUG`, on the triangle whose
edge-to-vertex list of edge 0 holds the three vertices 1, 2, 0, validation
passes and both dofmaps are consistent with their layouts, yet the entry
inserted for edge 0 has the two columns `[1, 2]` and not the dofs `[1, 2, 0]`
of the three listed vertices. -/
theorem completeness_claim_fails :
    ¬ completeness_claim true three_vertex_edge_V0 three_vertex_edge_V1
      three_vertex_edge_mesh id id := by
  intro h
  have hcall := h ⟨rfl, ⟨three_vertex_edge_mesh, rfl, rfl⟩, rfl, rfl⟩
    three_vertex_edge_row_consistent three_vertex_edge_col_consistent
    _ 0 (la.Call.insert 0 [1, 2]) rfl (by decide) rfl
  have hne : la.Call.insert 0 [1, 2] ≠ la.Call.insert 0 [1, 2, 0] := by decide
  exact hne hcall

/-- C5, amended: when validation passes, both dofmaps are consistent with their
element layouts (the lookup `cell_dofs(c)[entity_dofs(dim, p)[0]]`, wherever it
is defined, is the dof of the entity at position `p` of the cell-to-entity list
of `c`) and, in a build with `NDEBUG` where the assertions do not check it,
every local edge occurs in the cell-to-edge list of its first incident cell and
has exactly two listed vertices that occur in the cell-to-vertex list of that
cell, then every call the accumulator has received at a position `e` in
`[0, size_local + num_ghosts)` is the insert of the dof of edge `e` as row with
exactly the dofs of the vertices of the edge-to-vertex list of `e` as columns;
and when the call returns, such a call has been received for every such
`e`. -/
theorem inserted_entries_complete (ndebug : Bool) (V0 V1 : FunctionSpace)
    (m : mesh.MeshPtr) (edge_dof vertex_dof : Nat → Nat)
    (hv : validated V0 V1 m)
    (hE : row_dofs_consistent m.target.topology V0 edge_dof)
    (hV : col_dofs_consistent m.target.topology V1 vertex_dof)
    (hs : ndebug = true →
      ∀ e, e < (m.target.topology.index_map 1).size_local
          + (m.target.topology.index_map 1).num_ghosts →
        searches_succeed m.target.topology e) :
    (∀ q e call, (create_sparsity_discrete_gradient ndebug V0 V1).pattern = some q →
      e < (m.target.topology.index_map 1).size_local
        + (m.target.topology.index_map 1).num_ghosts →
      q.calls[e]? = some call →
      call = incidence_call m.target.topology edge_dof vertex_dof e) ∧
    (∀ q e, (create_sparsity_discrete_gradient ndebug V0 V1).result = Except.ok q →
      e < (m.target.topology.index_map 1).size_local
        + (m.target.topology.index_map 1).num_ghosts →
      q.calls[e]? = some (incidence_call m.target.topology edge_dof vertex_dof e)) := by
  have key : ∀ q e call, (create_sparsity_discrete_gradient ndebug V0 V1).pattern = some q →
      e < (m.target.topology.index_map 1).size_local
        + (m.target.topology.index_map 1).num_ghosts →
      q.calls[e]? = some call →
      call = incidence_call m.target.topology edge_dof vertex_dof e := by
    intro q e call hq he hcall
    obtain ⟨x, hent, hc⟩ := create_call_at ndebug V0 V1 m q hv.1 hq e call he hcall
    rw [hc]
    exact edge_entry_consistent ndebug _ V0 V1 edge_dof vertex_dof hE hV e x
      (fun hnd => hs hnd e he) hent
  refine ⟨key, ?_⟩
  intro q e hres he
  obtain ⟨_, hlen, hcalls⟩ := create_ok_calls ndebug V0 V1 m q hv.1 hres
  have hlt : e < q.calls.length := by
    rw [hcalls, List.length_append, List.length_map, hlen]
    exact Nat.lt_add_right 1 he
  have hsome : q.calls[e]? = some (q.calls[e]) := List.getElem?_eq_getElem hlt
  rw [hsome, key q e _ (create_result_ok ndebug V0 V1 q hres) he hsome]

/-- Witness of C5 amended: the single reference triangle with the identity
numberings, built with `NDEBUG`. -/
theorem inserted_entries_complete_witness :
    (∀ q e call,
      (create_sparsity_discrete_gradient true (triangle_V0 [0, 1, 2])
        (triangle_V1 [0, 1, 2])).pattern = some q →
      e < (triangle_mesh.target.topology.index_map 1).size_local
        + (triangle_mesh.target.topology.index_map 1).num_ghosts →
      q.calls[e]? = some call →
      call = incidence_call triangle_mesh.target.topology id id e) ∧
    (∀ q e,
      (create_sparsity_discrete_gradient true (triangle_V0 [0, 1, 2])
        (triangle_V1 [0, 1, 2])).result = Except.ok q →
      e < (triangle_mesh.target.topology.index_map 1).size_local
        + (triangle_mesh.target.topology.index_map 1).num_ghosts →
      q.calls[e]? = some (incidence_call triangle_mesh.target.topology id id e)) :=
  inserted_entries_complete true _ _ triangle_mesh id id (triangle_validated _ _)
    triangle_row_consistent triangle_col_consistent (fun _ e he => triangle_searches e he)

/-- C6: on the single reference triangle (three vertices, three edges, one
cell, edge `i` opposite to vertex `i`), with a row space carrying the dofs
`r0, r1, r2` on the edges and a column space carrying pairwise distinct dofs
`c0, c1, c2` on the vertices, the call returns a pattern that has received
exactly three inserts followed by assemble; the row of edge `i` has the two
distinct columns of the two vertices bounding edge `i`, and every vertex dof
occurs among the columns; with and without `NDEBUG`. -/
theorem single_triangle_pattern (ndebug : Bool) (r0 r1 r2 c0 c1 c2 : Nat)
    (hc : [c0, c1, c2].Nodup) :
    ∃ q, (create_sparsity_discrete_gradient ndebug (triangle_V0 [r0, r1, r2])
        (triangle_V1 [c0, c1, c2])).result = Except.ok q ∧
      q.calls = [la.Call.insert r0 [c1, c2], la.Call.insert r1 [c0, c2],
        la.Call.insert r2 [c0, c1], la.Call.assemble] ∧
      (∀ e, e < 3 → q.calls[e]? = some (la.Call.insert ([r0, r1, r2].getD e 0)
        ((triangle_e_to_v.getD e []).map (fun v => [c0, c1, c2].getD v 0)))) ∧
      c1 ≠ c2 ∧ c0 ≠ c2 ∧ c0 ≠ c1 ∧
      (∀ c ∈ [c0, c1, c2], ∃ row cols, la.Call.insert row cols ∈ q.calls ∧ c ∈ cols) := by
  simp only [List.nodup_cons, List.mem_cons, List.mem_singleton, List.not_mem_nil,
    or_false, not_or, List.nodup_nil, and_true, not_false_eq_true] at hc
  obtain ⟨⟨h01, h02⟩, h12⟩ := hc
  have hrun : ∃ q, (create_sparsity_discrete_gradient ndebug (triangle_V0 [r0, r1, r2])
        (triangle_V1 [c0, c1, c2])).result = Except.ok q ∧
      q.calls = [la.Call.insert r0 [c1, c2], la.Call.insert r1 [c0, c2],
        la.Call.insert r2 [c0, c1], la.Call.assemble] := by
    cases ndebug
    · exact ⟨_, rfl, rfl⟩
    · exact ⟨_, rfl, rfl⟩
  obtain ⟨q, hres, hcalls⟩ := hrun
  refine ⟨q, hres, hcalls, ?_, h12, h02, h01, ?_⟩
  · intro e he
    rw [hcalls]
    rcases e with _ | _ | _ | e
    · rfl
    · rfl
    · rfl
    · omega
  · intro c hcmem
    rw [hcalls]
    simp only [List.mem_cons, List.mem_singleton, List.not_mem_nil, or_false] at hcmem
    rcases hcmem with rfl | rfl | rfl
    · exact ⟨r1, [c, c2], by simp, by simp⟩
    · exact ⟨r0, [c, c2], by simp, by simp⟩
    · exact ⟨r0, [c1, c], by simp, by simp⟩

/-- Witness of C6: rows numbered 0, 1, 2 and columns numbered 0, 1, 2. -/
theorem single_triangle_pattern_witness :
    ∃ q, (create_sparsity_discrete_gradient false (triangle_V0 [0, 1, 2])
        (triangle_V1 [0, 1, 2])).result = Except.ok q ∧
      q.calls = [la.Call.insert 0 [1, 2], la.Call.insert 1 [0, 2],
        la.Call.insert 2 [0, 1], la.Call.assemble] ∧
      (∀ e, e < 3 → q.calls[e]? = some (la.Call.insert ([0, 1, 2].getD e 0)
        ((triangle_e_to_v.getD e []).map (fun v => [0, 1, 2].getD v 0)))) ∧
      1 ≠ 2 ∧ 0 ≠ 2 ∧ 0 ≠ 1 ∧
      (∀ c ∈ [0, 1, 2], ∃ row cols, la.Call.insert row cols ∈ q.calls ∧ c ∈ cols) :=
  single_triangle_pattern false 0 1 2 0 1 2 (by decide)

/-- C7, refuted as stated: on the second of two disjoint triangles, whose
process owns the global dofs `3 .. 5`, the call for edge 0 is
`insert(0, [1, 2])`, not the insert of the translated indices
`insert(3, [4, 5])`, with and without `NDEBUG`. -/
theorem emits_global_indices_fails :
    ¬ emits_global_indices false second_triangle_V0 second_triangle_V1 ∧
    ¬ emits_global_indices true second_triangle_V0 second_triangle_V1 := by
  constructor
  · intro h
    have h0 := h second_triangle_mesh _ rfl rfl 0 0 [1, 2] (by decide) rfl
    have h1 : some (la.Call.insert 0 [1, 2]) = some (la.Call.insert 3 [4, 5]) := h0
    exact absurd h1 (by decide)
  · intro h
    have h0 := h second_triangle_mesh _ rfl rfl 0 0 [1, 2] (by decide) rfl
    have h1 : some (la.Call.insert 0 [1, 2]) = some (la.Call.insert 3 [4, 5]) := h0
    exact absurd h1 (by decide)

/-- C7, amended: every call the accumulator has received at a position `e`
below the number of local edges is an insert whose row is read from
`V0.dofmap()->cell_dofs(cell)` and whose columns are read from
`V1.dofmap()->cell_dofs(cell)`, for `cell` the first incident cell of `e`:
the indices passed are the process-local dof indices of the cell dofmaps, with
no translation through the index maps; with and without `NDEBUG`. -/
theorem inserted_indices_local (ndebug : Bool) (V0 V1 : FunctionSpace)
    (m : mesh.MeshPtr) (q : la.SparsityPattern) (e : Nat) (call : la.Call)
    (hm : V0.mesh = some m)
    (hq : (create_sparsity_discrete_gradient ndebug V0 V1).pattern = some q)
    (he : e < num_edges m.target.topology)
    (hcall : q.calls[e]? = some call) :
    ∃ cell rest row cols,
      (m.target.topology.connectivity 1 m.target.topology.dim).links e = cell :: rest ∧
      call = la.Call.insert row cols ∧
      row ∈ V0.dofmap.cell_dofs cell ∧
      ∀ c ∈ cols, c ∈ V1.dofmap.cell_dofs cell := by
  obtain ⟨x, hent, hc⟩ := create_call_at ndebug V0 V1 m q hm hq e call he hcall
  obtain ⟨cell, d, v0, v1, col0, col1, hcell, _, hrow, _, _, hc0, hc1, hx, _⟩ :=
    edge_entry_inv ndebug _ V0 V1 e x hent
  obtain ⟨rest, hcells⟩ := list_cons_of_head _ cell hcell
  refine ⟨cell, rest, x.1, x.2, hcells, hc, List.getElem?_mem hrow, ?_⟩
  obtain ⟨d0, _, hd0, _⟩ := vertex_col_inv _ _ _ _ _ _ hc0
  obtain ⟨d1, _, hd1, _⟩ := vertex_col_inv _ _ _ _ _ _ hc1
  intro c hcm
  rw [hx] at hcm
  simp only [List.mem_cons, List.mem_singleton, List.not_mem_nil, or_false] at hcm
  rcases hcm with rfl | rfl
  · exact List.getElem?_mem hd0
  · exact List.getElem?_mem hd1

/-- Witness of C7 amended: the call for edge 0 of the second triangle. -/
theorem inserted_indices_local_witness :
    ∃ cell rest row cols,
      (second_triangle_mesh.target.topology.connectivity 1
        second_triangle_mesh.target.topology.dim).links 0 = cell :: rest ∧
      la.Call.insert 0 [1, 2] = la.Call.insert row cols ∧
      row ∈ second_triangle_V0.dofmap.cell_dofs cell ∧
      ∀ c ∈ cols, c ∈ second_triangle_V1.dofmap.cell_dofs cell :=
  inserted_indices_local false second_triangle_V0 second_triangle_V1 second_triangle_mesh _ 0
    (la.Call.insert 0 [1, 2]) rfl rfl (by decide) rfl

/-- C9: when the call returns the pattern `q`, the calls `q` has received are
one insert per local edge index `e = 0, 1, ..., size_local + num_ghosts - 1`,
in increasing order of `e`, each carrying the entry computed by the loop body
for that edge, followed by one assemble and nothing else; the loop body was
entered once for each of these edges, in that order; with and without
`NDEBUG`. -/
theorem call_sequence_on_return (ndebug : Bool) (V0 V1 : FunctionSpace)
    (m : mesh.MeshPtr) (q : la.SparsityPattern) (hm : V0.mesh = some m)
    (hres : (create_sparsity_discrete_gradient ndebug V0 V1).result = Except.ok q) :
    ∃ entries : List (Nat × List Nat),
      entries.length = (m.target.topology.index_map 1).size_local
        + (m.target.topology.index_map 1).num_ghosts ∧
      (∀ e x, entries[e]? = some x →
        edge_entry ndebug m.target.topology V0 V1 e = Except.ok x) ∧
      q.calls = entries.map insert_call ++ [la.Call.assemble] ∧
      (create_sparsity_discrete_gradient ndebug V0 V1).traversed
        = List.range entries.length := by
  obtain ⟨htrav, hlen, hcalls⟩ := create_ok_calls ndebug V0 V1 m q hm hres
  refine ⟨_, hlen, ?_, hcalls, by rw [hlen]; exact htrav⟩
  intro e x hx
  have he : e < num_edges m.target.topology := by
    obtain ⟨hlt, _⟩ := List.getElem?_eq_some.mp hx
    rw [hlen] at hlt
    exact hlt
  obtain ⟨e2, he2, hent⟩ := inserted_get _ _ _ _ hx
  rw [List.getElem?_range he] at he2
  have : e = e2 := Option.some.inj he2
  subst this
  exact hent

/-- Witness of C9: the single reference triangle. -/
theorem call_sequence_on_return_witness :
    ∃ entries : List (Nat × List Nat),
      entries.length = (triangle_mesh.target.topology.index_map 1).size_local
        + (triangle_mesh.target.topology.index_map 1).num_ghosts ∧
      (∀ e x, entries[e]? = some x →
        edge_entry false triangle_mesh.target.topology (triangle_V0 [0, 1, 2])
          (triangle_V1 [0, 1, 2]) e = Except.ok x) ∧
      (la.SparsityPattern.mk 0 (owned_index_map 0 3 3, owned_index_map 0 3 3) (1, 1)
        [la.Call.insert 0 [1, 2], la.Call.insert 1 [0, 2], la.Call.insert 2 [0, 1],
          la.Call.assemble]).calls = entries.map insert_call ++ [la.Call.assemble] ∧
      (create_sparsity_discrete_gradient false (triangle_V0 [0, 1, 2])
        (triangle_V1 [0, 1, 2])).traversed = List.range entries.length :=
  call_sequence_on_return false (triangle_V0 [0, 1, 2]) (triangle_V1 [0, 1, 2])
    triangle_mesh _ rfl rfl

/-- C10, refuted as stated: built with `NDEBUG`, on the reference triangle
with a row layout that attaches two dofs to every local edge, validation
passes, the row cardinality is violated at edge 0, and the call returns an
assembled pattern. -/
theorem violation_aborts_claim_fails :
    ¬ violation_aborts_claim true two_dof_row_V0 (triangle_V1 [0, 1, 2]) triangle_mesh := by
  intro h
  exact h ⟨rfl, ⟨triangle_mesh, rfl, rfl⟩, rfl, rfl⟩ 0 (by decide)
    (Or.inr (Or.inl ⟨0, [], rfl, by decide⟩)) _ rfl

/-- C10, amended: in a build without `NDEBUG` (assertions enabled), when
validation passes and some local edge in `[0, size_local + num_ghosts)` has no
incident cell, or the row layout attaches a number of dofs other than one to
the local position of the edge, or the column layout attaches a number of dofs
other than one to the local position of one of its vertices, the call does not
return a pattern: it stops on a failed assertion (or on an unchecked
out-of-range read of a cell dof list met before that assertion), and the
accumulator is never assembled. -/
theorem consistency_violation_aborts (V0 V1 : FunctionSpace) (m : mesh.MeshPtr) (e : Nat)
    (hv : validated V0 V1 m)
    (he : e < (m.target.topology.index_map 1).size_local
      + (m.target.topology.index_map 1).num_ghosts)
    (hbad : no_incident_cell m.target.topology e ∨
      row_cardinality_violated m.target.topology V0 e ∨
      col_cardinality_violated m.target.topology V1 e) :
    ∃ f, (create_sparsity_discrete_gradient false V0 V1).result = Except.error f ∧
      ((∃ expr, f = Failure.assertion_failed expr) ∨ f = Failure.out_of_bounds) ∧
      ∀ q, (create_sparsity_discrete_gradient false V0 V1).pattern = some q →
        la.Call.assemble ∉ q.calls := by
  cases hres : (create_sparsity_discrete_gradient false V0 V1).result with
  | ok q =>
    exfalso
    have hq := create_result_ok false V0 V1 q hres
    obtain ⟨m2, hv2, _, heq⟩ := create_pattern_some false V0 V1 q hq
    have hmm : m2 = m := by
      have := hv2.1
      rw [hv.1] at this
      exact (Option.some.inj this).symm
    subst hmm
    rw [heq] at hres
    obtain ⟨x, hx⟩ := edge_loop_all_ok _ _ _ _ q hres e (List.mem_range.mpr he)
    exact violation_blocks_entry _ V0 V1 e hbad x hx
  | error f =>
    refine ⟨f, rfl, ?_, ?_⟩
    · rcases create_stopped_or_loop false V0 V1 with ⟨g, hg⟩ | ⟨m2, _, _, heq⟩
      · rw [create_of_validated false V0 V1 m hv] at hg
        split at hg
        · rw [create_of_validated false V0 V1 m hv] at hres
          rename_i hbs
          rw [if_pos hbs] at hres
          simp only [Run.stopped, Except.error.injEq] at hres
          exact Or.inl ⟨_, hres.symm⟩
        · obtain ⟨q, hq⟩ := edge_loop_pattern_some (edge_entry false m.target.topology V0 V1)
            (List.range (num_edges m.target.topology)) (fresh_pattern V0 V1 m) []
          rw [hg] at hq
          simp [Run.stopped] at hq
      · rw [heq] at hres
        obtain ⟨⟨e2, _, he2⟩, _⟩ := edge_loop_error _ _ _ _ f hres
        cases f with
        | runtime_error what => exact absurd rfl (edge_entry_error _ _ _ _ _ _ he2 what)
        | assertion_failed expr => exact Or.inl ⟨expr, rfl⟩
        | out_of_bounds => exact Or.inr rfl
        | null_dereference =>
          exfalso
          unfold edge_entry at he2
          simp only at he2
          repeat' split at he2
          all_goals first
            | (simp at he2; done)
            | (rename_i g hg
               simp only [Except.error.injEq] at he2
               subst he2
               unfold vertex_col at hg
               simp only at hg
               repeat' split at hg
               all_goals simp at hg)
    · intro q hq hmem
      obtain ⟨m2, _, _, heq⟩ := create_pattern_some false V0 V1 q hq
      rw [heq] at hres hq
      obtain ⟨_, q2, h1, h2⟩ := edge_loop_error _ _ _ _ f hres
      rw [h1] at hq
      have hqq : q2 = q := Option.some.inj hq
      subst hqq
      rw [h2] at hmem
      simp [fresh_pattern, la.SparsityPattern.create, insert_call] at hmem

/-- Witness of C10 amended: an edge space passed as column space on the
reference triangle; its layout attaches no dof to the vertices. -/
theorem consistency_violation_aborts_witness :
    ∃ f, (create_sparsity_discrete_gradient false (triangle_V0 [0, 1, 2])
        (triangle_V0 [0, 1, 2])).result = Except.error f ∧
      ((∃ expr, f = Failure.assertion_failed expr) ∨ f = Failure.out_of_bounds) ∧
      ∀ q, (create_sparsity_discrete_gradient false (triangle_V0 [0, 1, 2])
          (triangle_V0 [0, 1, 2])).pattern = some q →
        la.Call.assemble ∉ q.calls :=
  consistency_violation_aborts (triangle_V0 [0, 1, 2]) (triangle_V0 [0, 1, 2]) triangle_mesh 0
    ⟨rfl, ⟨triangle_mesh, rfl, rfl⟩, rfl, rfl⟩ (by decide)
    (Or.inr (Or.inr ⟨0, [], 1, rfl, by decide, by decide⟩))

/-! ## Safety of the walker -/

theorem lookup_table_singleton (layout : ElementDofLayout) (dim n : Nat)
    (links dofs : List Nat) (x : Nat) (hmem : x ∈ links) (hlen : links.length = n)
    (hlay : ∀ p, p < n → ∃ d, layout.entity_dofs dim p = [d] ∧ d < dofs.length) :
    lookup_in_bounds links (local_entity_dofs layout dim n) n dofs x := by
  have hlt : links.indexOf x < links.length := List.indexOf_lt_length.mpr hmem
  have hn : links.indexOf x < n := by rw [← hlen]; exact hlt
  obtain ⟨d, hd, hdl⟩ := hlay _ hn
  refine ⟨hlt, hn, d, ?_, hdl⟩
  unfold local_entity_dofs
  rw [if_pos hn, hd]

theorem vertex_col_of_lookup (ndebug : Bool) (cell_vertices : List Nat)
    (table : Nat → List Nat) (n : Nat) (dofs1 : List Nat) (v : Nat)
    (h : lookup_in_bounds cell_vertices table n dofs1 v) :
    vertex_col ndebug cell_vertices table dofs1 v = Except.ok (dofs1.getD
      ((table (cell_vertices.indexOf v)).getD 0 0) 0) := by
  obtain ⟨hlt, _, d, hd, hdl⟩ := h
  unfold vertex_col
  simp only [hd, Nat.ne_of_lt hlt, and_false, if_false, List.length_singleton, ne_eq,
    not_true_eq_false, List.getElem?_cons_zero, List.getElem?_eq_getElem hdl,
    List.getD_cons_zero, List.getD_eq_getElem?_getD, Option.getD_some]

theorem body_in_bounds_of_well_formed (topology : mesh.Topology) (V0 V1 : FunctionSpace)
    (e : Nat) (h : well_formed_at topology V0 V1 e) :
    body_in_bounds topology V0 V1 e := by
  obtain ⟨cell, rest, v0, v1, hcells, he, hv, hv0, hv1, hle, hlv, hlay0, hlay1⟩ := h
  exact ⟨cell, rest, v0, v1, hcells, hv,
    lookup_table_singleton V0.dofmap.element_dof_layout 1 _ _ _ e he hle hlay0,
    lookup_table_singleton V1.dofmap.element_dof_layout 0 _ _ _ v0 hv0 hlv hlay1,
    lookup_table_singleton V1.dofmap.element_dof_layout 0 _ _ _ v1 hv1 hlv hlay1⟩

theorem edge_entry_of_well_formed (ndebug : Bool) (topology : mesh.Topology)
    (V0 V1 : FunctionSpace) (e : Nat) (h : well_formed_at topology V0 V1 e) :
    ∃ x, edge_entry ndebug topology V0 V1 e = Except.ok x := by
  obtain ⟨cell, rest, v0, v1, hcells, hv, ⟨hlt, _, d, hd, hdl⟩, hl0, hl1⟩ :=
    body_in_bounds_of_well_formed topology V0 V1 e h
  have hc0 := vertex_col_of_lookup ndebug _ _ _ _ v0 hl0
  have hc1 := vertex_col_of_lookup ndebug _ _ _ _ v1 hl1
  unfold edge_entry
  simp only [hcells, hv, hd, hc0, hc1, Nat.ne_of_lt hlt, and_false, if_false,
    List.length_cons, List.length_nil, List.length_singleton, ne_eq, not_true_eq_false,
    List.getElem?_cons_zero, List.getElem?_cons_succ, List.getElem?_eq_getElem hdl,
    Nat.succ_ne_zero, Nat.add_eq_zero, one_ne_zero, zero_add, reduceCtorEq]
  exact ⟨_, rfl⟩

theorem triangle_well_formed (e : Nat) (he : e < 3) :
    well_formed_at triangle_mesh.target.topology (triangle_V0 [0, 1, 2])
      (triangle_V1 [0, 1, 2]) e := by
  have hlay0 : ∀ p, p < 3 →
      ∃ d, (triangle_V0 [0, 1, 2]).dofmap.element_dof_layout.entity_dofs 1 p = [d] ∧
        d < ([0, 1, 2] : List Nat).length := by
    intro p hp; exact ⟨p, rfl, hp⟩
  have hlay1 : ∀ p, p < 3 →
      ∃ d, (triangle_V1 [0, 1, 2]).dofmap.element_dof_layout.entity_dofs 0 p = [d] ∧
        d < ([0, 1, 2] : List Nat).length := by
    intro p hp; exact ⟨p, rfl, hp⟩
  rcases e with _ | _ | _ | e
  · exact ⟨0, [], 1, 2, rfl, by decide, rfl, by decide, by decide, rfl, rfl, hlay0, hlay1⟩
  · exact ⟨0, [], 0, 2, rfl, by decide, rfl, by decide, by decide, rfl, rfl, hlay0, hlay1⟩
  · exact ⟨0, [], 0, 1, rfl, by decide, rfl, by decide, by decide, rfl, rfl, hlay0, hlay1⟩
  · omega

/-- C11: when validation passes, the two block sizes are equal and the mesh
and the layouts are well formed at every local edge (at least one incident
cell; the edge occurs in the cell-to-edge list of the first one; exactly two
vertices, both in the cell-to-vertex list of that cell; both lists with the
entity counts of the reference cell; one in-range dof per local edge and per
local vertex), the call returns a pattern: no assertion fails, and at every
local edge both searches find their target and every read of `cells`, of the
lookup tables, of `dofs0` and of `dofs1` is in bounds; with and without
`NDEBUG`. -/
theorem walker_safe (ndebug : Bool) (V0 V1 : FunctionSpace) (m : mesh.MeshPtr)
    (hv : validated V0 V1 m)
    (hbs : V0.dofmap.index_map_bs = V1.dofmap.index_map_bs)
    (hwf : ∀ e, e < num_edges m.target.topology →
      well_formed_at m.target.topology V0 V1 e) :
    (∃ q, (create_sparsity_discrete_gradient ndebug V0 V1).result = Except.ok q) ∧
    (∀ f, (create_sparsity_discrete_gradient ndebug V0 V1).result ≠ Except.error f) ∧
    (∀ e, e < num_edges m.target.topology →
      body_in_bounds m.target.topology V0 V1 e) := by
  have hentry : ∀ e ∈ List.range (num_edges m.target.topology),
      ∃ x, edge_entry ndebug m.target.topology V0 V1 e = Except.ok x := by
    intro e he
    exact edge_entry_of_well_formed ndebug _ V0 V1 e (hwf e (List.mem_range.mp he))
  have hrun : create_sparsity_discrete_gradient ndebug V0 V1 =
      edge_loop (edge_entry ndebug m.target.topology V0 V1)
        (List.range (num_edges m.target.topology)) (fresh_pattern V0 V1 m) [] := by
    rw [create_of_validated ndebug V0 V1 m hv]
    simp [hbs]
  obtain ⟨q, hq⟩ := edge_loop_returns _ _ (fresh_pattern V0 V1 m) [] hentry
  refine ⟨⟨q, by rw [hrun]; exact hq⟩, ?_, ?_⟩
  · intro f hf
    rw [hrun, hq] at hf
    simp at hf
  · intro e he
    exact body_in_bounds_of_well_formed _ V0 V1 e (hwf e he)

/-- Witness of C11: the single reference triangle. -/
theorem walker_safe_witness :
    (∃ q, (create_sparsity_discrete_gradient false (triangle_V0 [0, 1, 2])
      (triangle_V1 [0, 1, 2])).result = Except.ok q) ∧
    (∀ f, (create_sparsity_discrete_gradient false (triangle_V0 [0, 1, 2])
      (triangle_V1 [0, 1, 2])).result ≠ Except.error f) ∧
    (∀ e, e < num_edges triangle_mesh.target.topology →
      body_in_bounds triangle_mesh.target.topology (triangle_V0 [0, 1, 2])
        (triangle_V1 [0, 1, 2]) e) :=
  walker_safe false (triangle_V0 [0, 1, 2]) (triangle_V1 [0, 1, 2]) triangle_mesh
    (triangle_validated _ _) rfl (fun e he => triangle_well_formed e he)

end fem
end dolfinx

/-! ## Dispatch of mesh refinement -/

namespace dolfin

/-- C12: both overloads of `refine` take the same branch, as a function of the
topological dimension `D`, the refinement algorithm and the number of
processes: the serial routine (uniform, respectively local with the cell
markers) exactly when the run is serial and `D = 1` or the algorithm is
"regular_cut"; otherwise the Plaza routine exactly when `D` is 2 or 3;
otherwise the error. So the call fails exactly when `D` is neither 2 nor 3 and
the serial routine was not chosen, and the warning "Using Plaza algorithm in
parallel" is logged only with more than one process. -/
theorem refine_dispatch (parameters : GlobalParameters) (mesh : Mesh)
    (cell_markers : List Bool) (redistribute : Bool)
    (hsize : 0 < MPI.size mesh.mpi_comm) :
    (refine_uniform parameters mesh redistribute).step.branch
      = (refine_marked parameters mesh cell_markers redistribute).step.branch ∧
    ((refine_uniform parameters mesh redistribute).step = Step.UniformMeshRefinement_refine
      ↔ serial_refinement_chosen parameters mesh) ∧
    ((refine_marked parameters mesh cell_markers redistribute).step
        = Step.LocalMeshRefinement_refine cell_markers
      ↔ serial_refinement_chosen parameters mesh) ∧
    ((refine_uniform parameters mesh redistribute).step.branch = Branch.plaza
      ↔ ¬ serial_refinement_chosen parameters mesh ∧
        (mesh.topology.dim = 2 ∨ mesh.topology.dim = 3)) ∧
    ((refine_uniform parameters mesh redistribute).step.branch = Branch.error
      ↔ ¬ (mesh.topology.dim = 2 ∨ mesh.topology.dim = 3) ∧
        ¬ serial_refinement_chosen parameters mesh) ∧
    (plaza_warning ∈ (refine_uniform parameters mesh redistribute).warnings
      → 1 < MPI.size mesh.mpi_comm) ∧
    (plaza_warning ∈ (refine_marked parameters mesh cell_markers redistribute).warnings
      → 1 < MPI.size mesh.mpi_comm) := by
  have hone : MPI.size mesh.mpi_comm ≠ 1 → 1 < MPI.size mesh.mpi_comm := by
    intro h; omega
  unfold refine_uniform refine_marked serial_refinement_chosen
  simp only [decide_eq_true_eq]
  by_cases hc : MPI.size mesh.mpi_comm = 1 ∧
      (mesh.topology.dim = 1 ∨ parameters.refinement_algorithm = "regular_cut")
  · simp [hc, Step.branch]
  · by_cases hd : mesh.topology.dim = 2 ∨ mesh.topology.dim = 3
    · simp only [hc, hd, if_false, if_true, Step.branch, not_false_eq_true, and_self,
        true_and, not_true_eq_false, false_and, iff_false, reduceCtorEq]
      intro hw
      by_cases hreg : parameters.refinement_algorithm = "regular_cut"
      · apply hone
        intro hs
        exact hc ⟨hs, Or.inr hreg⟩
      · simp [hreg] at hw
    · simp [hc, hd, Step.branch]

/-- Witness of C12: a two-dimensional mesh on four processes with the algorithm
"regular_cut". -/
theorem refine_dispatch_witness :
    (refine_uniform ⟨"regular_cut"⟩ ⟨⟨2⟩, ⟨4⟩⟩ false).step.branch
      = (refine_marked ⟨"regular_cut"⟩ ⟨⟨2⟩, ⟨4⟩⟩ [true, false] false).step.branch ∧
    ((refine_uniform ⟨"regular_cut"⟩ ⟨⟨2⟩, ⟨4⟩⟩ false).step
        = Step.UniformMeshRefinement_refine
      ↔ serial_refinement_chosen ⟨"regular_cut"⟩ ⟨⟨2⟩, ⟨4⟩⟩) ∧
    ((refine_marked ⟨"regular_cut"⟩ ⟨⟨2⟩, ⟨4⟩⟩ [true, false] false).step
        = Step.LocalMeshRefinement_refine [true, false]
      ↔ serial_refinement_chosen ⟨"regular_cut"⟩ ⟨⟨2⟩, ⟨4⟩⟩) ∧
    ((refine_uniform ⟨"regular_cut"⟩ ⟨⟨2⟩, ⟨4⟩⟩ false).step.branch = Branch.plaza
      ↔ ¬ serial_refinement_chosen ⟨"regular_cut"⟩ ⟨⟨2⟩, ⟨4⟩⟩ ∧
        ((2 : Nat) = 2 ∨ (2 : Nat) = 3)) ∧
    ((refine_uniform ⟨"regular_cut"⟩ ⟨⟨2⟩, ⟨4⟩⟩ false).step.branch = Branch.error
      ↔ ¬ ((2 : Nat) = 2 ∨ (2 : Nat) = 3) ∧
        ¬ serial_refinement_chosen ⟨"regular_cut"⟩ ⟨⟨2⟩, ⟨4⟩⟩) ∧
    (plaza_warning ∈ (refine_uniform ⟨"regular_cut"⟩ ⟨⟨2⟩, ⟨4⟩⟩ false).warnings
      → 1 < 4) ∧
    (plaza_warning ∈ (refine_marked ⟨"regular_cut"⟩ ⟨⟨2⟩, ⟨4⟩⟩ [true, false] false).warnings
      → 1 < 4) :=
  refine_dispatch ⟨"regular_cut"⟩ ⟨⟨2⟩, ⟨4⟩⟩ [true, false] false (by decide)

end dolfin
